import Mathlib

/-
Verification of the SHA-256 / SHA-512 hash benchmark repository.

The development shallowly embeds the Rust sources:
  - sha256_rust/src/lib.rs   (generic transform, incremental hasher)
  - sha512_rust/src/lib.rs   (generic transform, incremental hasher)
  - sha256_aarch64/src/main.rs (hardware-instruction compression)
  - sha512_aarch64/src/main.rs (hardware-instruction compression)

Machine words (u32 / u64 / u128) are modelled as `Nat` with explicit
reduction modulo 2^32 / 2^64 / 2^128 wherever the source wraps; byte
buffers are lists of `Nat` (each entry modelling a `u8`, hence < 256 in
every run of the program); fixed-size arrays are lists of the
corresponding length.
-/

/-! ## Word arithmetic helpers -/

/-- Modulus of 32-bit words. -/
def M32 : Nat := 2 ^ 32

/-- Modulus of 64-bit words. -/
def M64 : Nat := 2 ^ 64

/-- Modulus of 128-bit words. -/
def M128 : Nat := 2 ^ 128

/-- Wrapping 32-bit addition (`u32::wrapping_add`). -/
def add32 (a b : Nat) : Nat := (a + b) % M32

/-- Wrapping 64-bit addition (`u64::wrapping_add`). -/
def add64 (a b : Nat) : Nat := (a + b) % M64

/-- 32-bit right rotation (`u32::rotate_right`). -/
def rotr32 (x n : Nat) : Nat := ((x >>> n) ||| (x <<< (32 - n))) % M32

/-- 64-bit right rotation (`u64::rotate_right`). -/
def rotr64 (x n : Nat) : Nat := ((x >>> n) ||| (x <<< (64 - n))) % M64

/-- Bitwise complement of a 32-bit word (`!x` on `u32`). -/
def not32 (x : Nat) : Nat := x ^^^ (M32 - 1)

/-- Bitwise complement of a 64-bit word (`!x` on `u64`). -/
def not64 (x : Nat) : Nat := x ^^^ (M64 - 1)

/-- Big-endian 32-bit word from four bytes (`u32::from_be_bytes`). -/
def beWord32 (b0 b1 b2 b3 : Nat) : Nat :=
  (b0 <<< 24) ||| (b1 <<< 16) ||| (b2 <<< 8) ||| b3

/-- Big-endian 64-bit word from eight bytes (`u64::from_be_bytes`). -/
def beWord64 (b0 b1 b2 b3 b4 b5 b6 b7 : Nat) : Nat :=
  (b0 <<< 56) ||| (b1 <<< 48) ||| (b2 <<< 40) ||| (b3 <<< 32) |||
  (b4 <<< 24) ||| (b5 <<< 16) ||| (b6 <<< 8) ||| b7

/-- Big-endian serialization of `n` into `k` bytes
(`to_be_bytes` on the `k`-byte unsigned integer type). -/
def beBytes : Nat → Nat → List Nat
  | 0, _ => []
  | k + 1, n => beBytes k (n / 256) ++ [n % 256]

/-- Overwrite `l` starting at position `i` with the bytes of `v`,
modelling `l[i..i+v.len()].copy_from_slice(&v)`. -/
def listCopyAt (l : List Nat) (i : Nat) (v : List Nat) : List Nat :=
  l.take i ++ v ++ l.drop (i + v.length)

/-- Set positions `i, i+1, …, n-1` of `l` to zero, modelling the source's
`while len < n { buf[len] = 0; len += 1 }` zero-fill loops. -/
def zeroFill (l : List Nat) (i n : Nat) : List Nat :=
  listCopyAt l i (List.replicate (n - i) 0)

/-! ## List index bookkeeping lemmas -/

lemma getD_set_self : ∀ (l : List Nat) (i v : Nat), i < l.length →
    (l.set i v).getD i 0 = v
  | _ :: _, 0, _, _ => rfl
  | _ :: t, i + 1, v, h => getD_set_self t i v (by simpa using h)
  | [], _, _, h => absurd h (by simp)

lemma getD_set_ne : ∀ (l : List Nat) (i j v : Nat), i ≠ j →
    (l.set i v).getD j 0 = l.getD j 0
  | [], _, _, _, _ => by simp
  | _ :: _, 0, 0, _, hne => absurd rfl hne
  | _ :: _, 0, _ + 1, _, _ => rfl
  | _ :: _, _ + 1, 0, _, _ => rfl
  | _ :: t, i + 1, j + 1, v, hne =>
    getD_set_ne t i j v (fun h => hne (by omega))

/-- Fold that writes `body w i` into slot `i` for `i ∈ [s, s+n)`, where the
body only reads slots below `i`: the result agrees with the recurrence `W`
everywhere below `s + n`.  This is the shape of both message-schedule loops. -/
lemma foldl_set_sched (body : List Nat → Nat → Nat) (W : Nat → Nat) (L : Nat) :
    ∀ (n s : Nat) (w0 : List Nat),
      w0.length = L → s + n ≤ L →
      (∀ j, j < s → w0.getD j 0 = W j) →
      (∀ (w : List Nat) (i : Nat), s ≤ i → i < s + n → w.length = L →
          (∀ j, j < i → w.getD j 0 = W j) → body w i = W i) →
      ((List.range' s n).foldl (fun w i => w.set i (body w i)) w0).length = L ∧
      ∀ j, j < s + n →
        ((List.range' s n).foldl (fun w i => w.set i (body w i)) w0).getD j 0 = W j := by
  intro n
  induction n with
  | zero =>
    intro s w0 hlen _ hlow _
    constructor
    · simpa [List.range'] using hlen
    · intro j hj
      have := hlow j (by omega)
      simpa [List.range'] using this
  | succ n ih =>
    intro s w0 hlen hle hlow hbody
    have hbody0 : body w0 s = W s := by
      refine hbody w0 s (Nat.le_refl s) (by omega) hlen ?_
      intro j hj; exact hlow j hj
    have hset_len : (w0.set s (body w0 s)).length = L := by
      simpa [List.length_set] using hlen
    have hset_low : ∀ j, j < s + 1 → (w0.set s (body w0 s)).getD j 0 = W j := by
      intro j hj
      rcases Nat.lt_or_ge j s with hlt | hge
      · rw [getD_set_ne _ _ _ _ (by omega)]; exact hlow j hlt
      · have hj' : j = s := by omega
        subst hj'
        rw [getD_set_self _ _ _ (by omega), hbody0]
    have hstep : List.range' s (n + 1) = s :: List.range' (s + 1) n := by
      simp [List.range'_succ]
    have := ih (s + 1) (w0.set s (body w0 s)) hset_len (by omega) hset_low ?_
    · rw [hstep]
      simpa [Nat.add_comm, Nat.add_assoc, Nat.add_left_comm] using this
    · intro w i hsi hin hwlen hwlow
      exact hbody w i (by omega) (by omega) hwlen hwlow

/-- Folds over the same list with pointwise-equal step functions agree. -/
lemma foldl_congr_mem {α β : Type} : ∀ (l : List β) (f g : α → β → α) (v : α),
    (∀ (a : α) (b : β), b ∈ l → f a b = g a b) → l.foldl f v = l.foldl g v
  | [], _, _, _, _ => rfl
  | b :: t, f, g, v, h => by
    have hb : f v b = g v b := h v b (List.mem_cons_self b t)
    simp only [List.foldl_cons, hb]
    exact foldl_congr_mem t f g (g v b) (fun a b hb' => h a b (List.mem_cons_of_mem _ hb'))

/-! ## SHA-256 round constants and state (sha256_rust/src/lib.rs) -/

/-- The 64 SHA-256 round constants `K` from sha256_rust/src/lib.rs. -/
def K256 : List Nat := [
  1116352408, 0x71374491, 0xb5c0fbcf, 0xe9b5dba5,
  961987163, 0x59f111f1, 0x923f82a4, 0xab1c5ed5,
  3624381080, 0x12835b01, 0x243185be, 0x550c7dc3,
  1925078388, 0x80deb1fe, 0x9bdc06a7, 0xc19bf174,
  3835390401, 0xefbe4786, 0x0fc19dc6, 0x240ca1cc,
  770255983, 0x4a7484aa, 0x5cb0a9dc, 0x76f988da,
  2554220882, 0xa831c66d, 0xb00327c8, 0xbf597fc7,
  3336571891, 0xd5a79147, 0x06ca6351, 0x14292967,
  666307205, 0x2e1b2138, 0x4d2c6dfc, 0x53380d13,
  1695183700, 0x766a0abb, 0x81c2c92e, 0x92722c85,
  2730485921, 0xa81a664b, 0xc24b8b70, 0xc76c51a3,
  3516065817, 0xd6990624, 0xf40e3585, 0x106aa070,
  430227734, 0x1e376c08, 0x2748774c, 0x34b0bcb5,
  958139571, 0x4ed8aa4a, 0x5b9cca4f, 0x682e6ff3,
  1955562222, 0x78a5636f, 0x84c87814, 0x8cc70208,
  2428436474, 0xa4506ceb, 0xbef9a3f7, 0xc67178f2]

/-- SHA-256 chaining state `Sha256State { h: [u32; 8] }`. -/
structure Sha256State where
  h0 : Nat
  h1 : Nat
  h2 : Nat
  h3 : Nat
  h4 : Nat
  h5 : Nat
  h6 : Nat
  h7 : Nat
deriving DecidableEq, Repr

/-- SHA-256 initial chaining value (`Sha256State::new`). -/
def sha256_init_state : Sha256State :=
  ⟨0x6a09e667, 0xbb67ae85, 0x3c6ef372, 0xa54ff53a,
   0x510e527f, 0x9b05688c, 0x1f83d9ab, 0x5be0cd19⟩

/-- Eight working variables a..h of the compression loop. -/
structure Hash8 where
  a : Nat
  b : Nat
  c : Nat
  d : Nat
  e : Nat
  f : Nat
  g : Nat
  h : Nat
deriving DecidableEq, Repr

/-! ## SHA-256 generic transform (sha256_transform_generic) -/

/-- First message-schedule loop of `sha256_transform_generic`:
`w[i] = u32::from_be_bytes(data[i*4 .. i*4+4])` for `i < 16`. -/
def sha256_w_init (data : List Nat) : List Nat :=
  (List.range' 0 16).foldl
    (fun w i => w.set i
      (beWord32 (data.getD (i * 4) 0) (data.getD (i * 4 + 1) 0)
                (data.getD (i * 4 + 2) 0) (data.getD (i * 4 + 3) 0)))
    (List.replicate 64 0)

/-- Second message-schedule loop of `sha256_transform_generic`:
the σ0/σ1 expansion for `i ∈ [16, 64)`. -/
def sha256_w_extend (w0 : List Nat) : List Nat :=
  (List.range' 16 48).foldl
    (fun w i =>
      w.set i
        (add32
          (add32
            (add32 (w.getD (i - 16) 0)
              (rotr32 (w.getD (i - 15) 0) 7 ^^^ rotr32 (w.getD (i - 15) 0) 18 ^^^
                (w.getD (i - 15) 0 >>> 3)))
            (w.getD (i - 7) 0))
          (rotr32 (w.getD (i - 2) 0) 17 ^^^ rotr32 (w.getD (i - 2) 0) 19 ^^^
            (w.getD (i - 2) 0 >>> 10))))
    w0

/-- One round of the main loop of `sha256_transform_generic`. -/
def sha256_round_code (w : List Nat) (v : Hash8) (i : Nat) : Hash8 :=
  let s1 := rotr32 v.e 6 ^^^ rotr32 v.e 11 ^^^ rotr32 v.e 25
  let ch := (v.e &&& v.f) ^^^ (not32 v.e &&& v.g)
  let temp1 := add32 (add32 (add32 (add32 v.h s1) ch) (K256.getD i 0)) (w.getD i 0)
  let s0 := rotr32 v.a 2 ^^^ rotr32 v.a 13 ^^^ rotr32 v.a 22
  let maj := (v.a &&& v.b) ^^^ (v.a &&& v.c) ^^^ (v.b &&& v.c)
  let temp2 := add32 s0 maj
  ⟨add32 temp1 temp2, v.a, v.b, v.c, add32 v.d temp1, v.e, v.f, v.g⟩

/-- `sha256_transform_generic` from sha256_rust/src/lib.rs: message-schedule
expansion, 64 compression rounds, and the feed-forward addition. -/
def sha256_transform_generic (state : Sha256State) (data : List Nat) : Sha256State :=
  let w := sha256_w_extend (sha256_w_init data)
  let v := (List.range 64).foldl (sha256_round_code w)
    ⟨state.h0, state.h1, state.h2, state.h3, state.h4, state.h5, state.h6, state.h7⟩
  ⟨add32 state.h0 v.a, add32 state.h1 v.b, add32 state.h2 v.c, add32 state.h3 v.d,
   add32 state.h4 v.e, add32 state.h5 v.f, add32 state.h6 v.g, add32 state.h7 v.h⟩

/-- `sha256_transform_arm`: on every build configuration the source forwards
to the generic transform. -/
def sha256_transform_arm (state : Sha256State) (data : List Nat) : Sha256State :=
  sha256_transform_generic state data

/-! ## SHA-256 algorithm of record, written from the specification text -/

/-- σ0 for SHA-256: rotation/shift amounts 7/18/3. -/
def sigma0_256 (x : Nat) : Nat := rotr32 x 7 ^^^ rotr32 x 18 ^^^ (x >>> 3)

/-- σ1 for SHA-256: rotation/shift amounts 17/19/10. -/
def sigma1_256 (x : Nat) : Nat := rotr32 x 17 ^^^ rotr32 x 19 ^^^ (x >>> 10)

/-- Σ0 for SHA-256: rotation amounts 2/13/22. -/
def bigSigma0_256 (x : Nat) : Nat := rotr32 x 2 ^^^ rotr32 x 13 ^^^ rotr32 x 22

/-- Σ1 for SHA-256: rotation amounts 6/11/25. -/
def bigSigma1_256 (x : Nat) : Nat := rotr32 x 6 ^^^ rotr32 x 11 ^^^ rotr32 x 25

/-- Ch(e,f,g) = (e & f) ^ (~e & g) on 32-bit words. -/
def ch32 (e f g : Nat) : Nat := (e &&& f) ^^^ (not32 e &&& g)

/-- Maj(a,b,c) = (a & b) ^ (a & c) ^ (b & c) on 32-bit words. -/
def maj32 (a b c : Nat) : Nat := (a &&& b) ^^^ (a &&& c) ^^^ (b &&& c)

/-- The SHA-256 message schedule as stated by the spec: the first 16 words
are the block's big-endian 32-bit groups, and
`W[i] = W[i-16] + σ0(W[i-15]) + W[i-7] + σ1(W[i-2])` under wraparound
addition for `i ≥ 16`. -/
def msgWord256 (data : List Nat) : Nat → Nat
  | i =>
    if _h : i < 16 then
      beWord32 (data.getD (i * 4) 0) (data.getD (i * 4 + 1) 0)
        (data.getD (i * 4 + 2) 0) (data.getD (i * 4 + 3) 0)
    else
      add32
        (add32
          (add32 (msgWord256 data (i - 16)) (sigma0_256 (msgWord256 data (i - 15))))
          (msgWord256 data (i - 7)))
        (sigma1_256 (msgWord256 data (i - 2)))
termination_by i => i
decreasing_by all_goals omega

/-- One spec round: `temp1 = h + Σ1(e) + Ch(e,f,g) + K[i] + W[i]`,
`temp2 = Σ0(a) + Maj(a,b,c)`, rotation of the working variables. -/
def sha256_round_spec (W : Nat → Nat) (v : Hash8) (i : Nat) : Hash8 :=
  let temp1 := add32 (add32 (add32 (add32 v.h (bigSigma1_256 v.e)) (ch32 v.e v.f v.g))
    (K256.getD i 0)) (W i)
  let temp2 := add32 (bigSigma0_256 v.a) (maj32 v.a v.b v.c)
  ⟨add32 temp1 temp2, v.a, v.b, v.c, add32 v.d temp1, v.e, v.f, v.g⟩

/-- The spec's algorithm of record for one SHA-256 block: schedule by the
recurrence, 64 rounds, word-wise wraparound feed-forward. -/
def sha256_spec_transform (state : Sha256State) (data : List Nat) : Sha256State :=
  let v := (List.range 64).foldl (sha256_round_spec (msgWord256 data))
    ⟨state.h0, state.h1, state.h2, state.h3, state.h4, state.h5, state.h6, state.h7⟩
  ⟨add32 state.h0 v.a, add32 state.h1 v.b, add32 state.h2 v.c, add32 state.h3 v.d,
   add32 state.h4 v.e, add32 state.h5 v.f, add32 state.h6 v.g, add32 state.h7 v.h⟩

/-! ## SHA-256 schedule refinement -/

lemma msgWord256_base (d : List Nat) (i : Nat) (h : i < 16) :
    msgWord256 d i = beWord32 (d.getD (i * 4) 0) (d.getD (i * 4 + 1) 0)
      (d.getD (i * 4 + 2) 0) (d.getD (i * 4 + 3) 0) := by
  conv_lhs => rw [msgWord256]
  simp only [dif_pos h]

lemma msgWord256_rec (d : List Nat) (i : Nat) (h : 16 ≤ i) :
    msgWord256 d i =
      add32
        (add32
          (add32 (msgWord256 d (i - 16)) (sigma0_256 (msgWord256 d (i - 15))))
          (msgWord256 d (i - 7)))
        (sigma1_256 (msgWord256 d (i - 2))) := by
  conv_lhs => rw [msgWord256]
  simp only [dif_neg (by omega : ¬ i < 16)]

lemma sha256_sched_eq (d : List Nat) :
    ∀ j, j < 64 → (sha256_w_extend (sha256_w_init d)).getD j 0 = msgWord256 d j := by
  have h1 := foldl_set_sched
    (fun _ i => beWord32 (d.getD (i * 4) 0) (d.getD (i * 4 + 1) 0)
      (d.getD (i * 4 + 2) 0) (d.getD (i * 4 + 3) 0))
    (msgWord256 d) 64 16 0 (List.replicate 64 0)
    (by simp) (by omega) (by omega) ?_
  · have h2 := foldl_set_sched
      (fun w i =>
        add32
          (add32
            (add32 (w.getD (i - 16) 0)
              (rotr32 (w.getD (i - 15) 0) 7 ^^^ rotr32 (w.getD (i - 15) 0) 18 ^^^
                (w.getD (i - 15) 0 >>> 3)))
            (w.getD (i - 7) 0))
          (rotr32 (w.getD (i - 2) 0) 17 ^^^ rotr32 (w.getD (i - 2) 0) 19 ^^^
            (w.getD (i - 2) 0 >>> 10)))
      (msgWord256 d) 64 48 16 (sha256_w_init d) h1.1 (by omega)
      (fun j hj => h1.2 j (by omega)) ?_
    · intro j hj
      exact h2.2 j (by omega)
    · intro w i h16 hi _ hlow
      dsimp only
      rw [hlow (i - 16) (by omega), hlow (i - 15) (by omega),
        hlow (i - 7) (by omega), hlow (i - 2) (by omega)]
      rw [msgWord256_rec d i (by omega)]
      simp only [sigma0_256, sigma1_256]
  · intro _ i _ hi _ _
    dsimp only
    rw [msgWord256_base d i (by omega)]

lemma sha256_round_code_eq (d : List Nat) (v : Hash8) (i : Nat) (hi : i < 64) :
    sha256_round_code (sha256_w_extend (sha256_w_init d)) v i =
    sha256_round_spec (msgWord256 d) v i := by
  simp only [sha256_round_code, sha256_round_spec, sha256_sched_eq d i hi,
    bigSigma0_256, bigSigma1_256, ch32, maj32]

/-- The generic transform equals the spec's algorithm of record (SHA-256). -/
lemma sha256_transform_eq_spec (s : Sha256State) (d : List Nat) :
    sha256_transform_generic s d = sha256_spec_transform s d := by
  simp only [sha256_transform_generic, sha256_spec_transform]
  have hfold : (List.range 64).foldl
      (sha256_round_code (sha256_w_extend (sha256_w_init d)))
      ⟨s.h0, s.h1, s.h2, s.h3, s.h4, s.h5, s.h6, s.h7⟩ =
      (List.range 64).foldl (sha256_round_spec (msgWord256 d))
      ⟨s.h0, s.h1, s.h2, s.h3, s.h4, s.h5, s.h6, s.h7⟩ := by
    refine foldl_congr_mem _ _ _ _ ?_
    intro v i hi
    exact sha256_round_code_eq d v i (List.mem_range.mp hi)
  rw [hfold]

/-! ## SHA-512 round constants and state (sha512_rust/src/lib.rs) -/

/-- The 80 SHA-512 round constants `K` from sha512_rust/src/lib.rs. -/
def K512 : List Nat := [
  4794697086780616226, 0x7137449123ef65cd, 0xb5c0fbcfec4d3b2f, 0xe9b5dba58189dbbc,
  4131703408338449720, 0x59f111f1b605d019, 0x923f82a4af194f9b, 0xab1c5ed5da6d8118,
  15566598209576043074, 0x12835b0145706fbe, 0x243185be4ee4b28c, 0x550c7dc3d5ffb4e2,
  8268148722764581231, 0x80deb1fe3b1696b1, 0x9bdc06a725c71235, 0xc19bf174cf692694,
  16472876342353939154, 0xefbe4786384f25e3, 0x0fc19dc68b8cd5b5, 0x240ca1cc77ac9c65,
  3308224258029322869, 0x4a7484aa6ea6e483, 0x5cb0a9dcbd41fbd4, 0x76f988da831153b5,
  10970295158949994411, 0xa831c66d2db43210, 0xb00327c898fb213f, 0xbf597fc7beef0ee4,
  14330467153632333762, 0xd5a79147930aa725, 0x06ca6351e003826f, 0x142929670a0e6e70,
  2861767655752347644, 0x2e1b21385c26c926, 0x4d2c6dfc5ac42aed, 0x53380d139d95b3df,
  7280758554555802590, 0x766a0abb3c77b2a8, 0x81c2c92e47edaee6, 0x92722c851482353b,
  11727347734174303076, 0xa81a664bbc423001, 0xc24b8b70d0f89791, 0xc76c51a30654be30,
  15101387698204529176, 0xd69906245565a910, 0xf40e35855771202a, 0x106aa07032bbd1b8,
  1847814050463011016, 0x1e376c085141ab53, 0x2748774cdf8eeb99, 0x34b0bcb5e19b48a8,
  4115178125766777443, 0x4ed8aa4ae3418acb, 0x5b9cca4f7763e373, 0x682e6ff3d6b2b8a3,
  8399075790359081724, 0x78a5636f43172f60, 0x84c87814a1f0ab72, 0x8cc702081a6439ec,
  10430055236837252648, 0xa4506cebde82bde9, 0xbef9a3f7b2c67915, 0xc67178f2e372532b,
  14566680578165727644, 0xd186b8c721c0c207, 0xeada7dd6cde0eb1e, 0xf57d4f7fee6ed178,
  500013540394364858, 0x0a637dc5a2c898a6, 0x113f9804bef90dae, 0x1b710b35131c471b,
  2944078676154940804, 0x32caab7b40c72493, 0x3c9ebe0a15c9bebc, 0x431d67c49c100d4c,
  5532061633213252278, 0x597f299cfc657e2a, 0x5fcb6fab3ad6faec, 0x6c44198c4a475817]

/-- SHA-512 chaining state `Sha512State { h: [u64; 8] }`. -/
structure Sha512State where
  h0 : Nat
  h1 : Nat
  h2 : Nat
  h3 : Nat
  h4 : Nat
  h5 : Nat
  h6 : Nat
  h7 : Nat
deriving DecidableEq, Repr

/-- SHA-512 initial chaining value (`Sha512State::new`). -/
def sha512_init_state : Sha512State :=
  ⟨0x6a09e667f3bcc908, 0xbb67ae8584caa73b, 0x3c6ef372fe94f82b, 0xa54ff53a5f1d36f1,
   0x510e527fade682d1, 0x9b05688c2b3e6c1f, 0x1f83d9abfb41bd6b, 0x5be0cd19137e2179⟩

/-! ## SHA-512 generic transform (sha512_transform_generic) -/

/-- First message-schedule loop of `sha512_transform_generic`:
`w[i] = u64::from_be_bytes(data[i*8 .. i*8+8])` for `i < 16`. -/
def sha512_w_init (data : List Nat) : List Nat :=
  (List.range' 0 16).foldl
    (fun w i => w.set i
      (beWord64 (data.getD (i * 8) 0) (data.getD (i * 8 + 1) 0)
                (data.getD (i * 8 + 2) 0) (data.getD (i * 8 + 3) 0)
                (data.getD (i * 8 + 4) 0) (data.getD (i * 8 + 5) 0)
                (data.getD (i * 8 + 6) 0) (data.getD (i * 8 + 7) 0)))
    (List.replicate 80 0)

/-- Second message-schedule loop of `sha512_transform_generic`:
the σ0/σ1 expansion for `i ∈ [16, 80)`. -/
def sha512_w_extend (w0 : List Nat) : List Nat :=
  (List.range' 16 64).foldl
    (fun w i =>
      w.set i
        (add64
          (add64
            (add64 (w.getD (i - 16) 0)
              (rotr64 (w.getD (i - 15) 0) 1 ^^^ rotr64 (w.getD (i - 15) 0) 8 ^^^
                (w.getD (i - 15) 0 >>> 7)))
            (w.getD (i - 7) 0))
          (rotr64 (w.getD (i - 2) 0) 19 ^^^ rotr64 (w.getD (i - 2) 0) 61 ^^^
            (w.getD (i - 2) 0 >>> 6))))
    w0

/-- One round of the main loop of `sha512_transform_generic`. -/
def sha512_round_code (w : List Nat) (v : Hash8) (i : Nat) : Hash8 :=
  let s1 := rotr64 v.e 14 ^^^ rotr64 v.e 18 ^^^ rotr64 v.e 41
  let ch := (v.e &&& v.f) ^^^ (not64 v.e &&& v.g)
  let temp1 := add64 (add64 (add64 (add64 v.h s1) ch) (K512.getD i 0)) (w.getD i 0)
  let s0 := rotr64 v.a 28 ^^^ rotr64 v.a 34 ^^^ rotr64 v.a 39
  let maj := (v.a &&& v.b) ^^^ (v.a &&& v.c) ^^^ (v.b &&& v.c)
  let temp2 := add64 s0 maj
  ⟨add64 temp1 temp2, v.a, v.b, v.c, add64 v.d temp1, v.e, v.f, v.g⟩

/-- `sha512_transform_generic` from sha512_rust/src/lib.rs: message-schedule
expansion, 80 compression rounds, and the feed-forward addition. -/
def sha512_transform_generic (state : Sha512State) (data : List Nat) : Sha512State :=
  let w := sha512_w_extend (sha512_w_init data)
  let v := (List.range 80).foldl (sha512_round_code w)
    ⟨state.h0, state.h1, state.h2, state.h3, state.h4, state.h5, state.h6, state.h7⟩
  ⟨add64 state.h0 v.a, add64 state.h1 v.b, add64 state.h2 v.c, add64 state.h3 v.d,
   add64 state.h4 v.e, add64 state.h5 v.f, add64 state.h6 v.g, add64 state.h7 v.h⟩

/-- `sha512_transform_arm`: on every build configuration the source forwards
to the generic transform. -/
def sha512_transform_arm (state : Sha512State) (data : List Nat) : Sha512State :=
  sha512_transform_generic state data

/-! ## SHA-512 algorithm of record, written from the specification text -/

/-- σ0 for SHA-512: rotation/shift amounts 1/8/7. -/
def sigma0_512 (x : Nat) : Nat := rotr64 x 1 ^^^ rotr64 x 8 ^^^ (x >>> 7)

/-- σ1 for SHA-512: rotation/shift amounts 19/61/6. -/
def sigma1_512 (x : Nat) : Nat := rotr64 x 19 ^^^ rotr64 x 61 ^^^ (x >>> 6)

/-- Σ0 for SHA-512: rotation amounts 28/34/39. -/
def bigSigma0_512 (x : Nat) : Nat := rotr64 x 28 ^^^ rotr64 x 34 ^^^ rotr64 x 39

/-- Σ1 for SHA-512: rotation amounts 14/18/41. -/
def bigSigma1_512 (x : Nat) : Nat := rotr64 x 14 ^^^ rotr64 x 18 ^^^ rotr64 x 41

/-- Ch(e,f,g) = (e & f) ^ (~e & g) on 64-bit words. -/
def ch64 (e f g : Nat) : Nat := (e &&& f) ^^^ (not64 e &&& g)

/-- Maj(a,b,c) = (a & b) ^ (a & c) ^ (b & c) on 64-bit words. -/
def maj64 (a b c : Nat) : Nat := (a &&& b) ^^^ (a &&& c) ^^^ (b &&& c)

/-- The SHA-512 message schedule as stated by the spec: the first 16 words
are the block's big-endian 64-bit groups, and
`W[i] = W[i-16] + σ0(W[i-15]) + W[i-7] + σ1(W[i-2])` under wraparound
addition for `i ≥ 16`. -/
def msgWord512 (data : List Nat) : Nat → Nat
  | i =>
    if _h : i < 16 then
      beWord64 (data.getD (i * 8) 0) (data.getD (i * 8 + 1) 0)
        (data.getD (i * 8 + 2) 0) (data.getD (i * 8 + 3) 0)
        (data.getD (i * 8 + 4) 0) (data.getD (i * 8 + 5) 0)
        (data.getD (i * 8 + 6) 0) (data.getD (i * 8 + 7) 0)
    else
      add64
        (add64
          (add64 (msgWord512 data (i - 16)) (sigma0_512 (msgWord512 data (i - 15))))
          (msgWord512 data (i - 7)))
        (sigma1_512 (msgWord512 data (i - 2)))
termination_by i => i
decreasing_by all_goals omega

/-- One spec round: `temp1 = h + Σ1(e) + Ch(e,f,g) + K[i] + W[i]`,
`temp2 = Σ0(a) + Maj(a,b,c)`, rotation of the working variables. -/
def sha512_round_spec (W : Nat → Nat) (v : Hash8) (i : Nat) : Hash8 :=
  let temp1 := add64 (add64 (add64 (add64 v.h (bigSigma1_512 v.e)) (ch64 v.e v.f v.g))
    (K512.getD i 0)) (W i)
  let temp2 := add64 (bigSigma0_512 v.a) (maj64 v.a v.b v.c)
  ⟨add64 temp1 temp2, v.a, v.b, v.c, add64 v.d temp1, v.e, v.f, v.g⟩

/-- The spec's algorithm of record for one SHA-512 block: schedule by the
recurrence, 80 rounds, word-wise wraparound feed-forward. -/
def sha512_spec_transform (state : Sha512State) (data : List Nat) : Sha512State :=
  let v := (List.range 80).foldl (sha512_round_spec (msgWord512 data))
    ⟨state.h0, state.h1, state.h2, state.h3, state.h4, state.h5, state.h6, state.h7⟩
  ⟨add64 state.h0 v.a, add64 state.h1 v.b, add64 state.h2 v.c, add64 state.h3 v.d,
   add64 state.h4 v.e, add64 state.h5 v.f, add64 state.h6 v.g, add64 state.h7 v.h⟩

/-! ## SHA-512 schedule refinement -/

lemma msgWord512_base (d : List Nat) (i : Nat) (h : i < 16) :
    msgWord512 d i = beWord64 (d.getD (i * 8) 0) (d.getD (i * 8 + 1) 0)
      (d.getD (i * 8 + 2) 0) (d.getD (i * 8 + 3) 0)
      (d.getD (i * 8 + 4) 0) (d.getD (i * 8 + 5) 0)
      (d.getD (i * 8 + 6) 0) (d.getD (i * 8 + 7) 0) := by
  conv_lhs => rw [msgWord512]
  simp only [dif_pos h]

lemma msgWord512_rec (d : List Nat) (i : Nat) (h : 16 ≤ i) :
    msgWord512 d i =
      add64
        (add64
          (add64 (msgWord512 d (i - 16)) (sigma0_512 (msgWord512 d (i - 15))))
          (msgWord512 d (i - 7)))
        (sigma1_512 (msgWord512 d (i - 2))) := by
  conv_lhs => rw [msgWord512]
  simp only [dif_neg (by omega : ¬ i < 16)]

lemma sha512_sched_eq (d : List Nat) :
    ∀ j, j < 80 → (sha512_w_extend (sha512_w_init d)).getD j 0 = msgWord512 d j := by
  have h1 := foldl_set_sched
    (fun _ i => beWord64 (d.getD (i * 8) 0) (d.getD (i * 8 + 1) 0)
      (d.getD (i * 8 + 2) 0) (d.getD (i * 8 + 3) 0)
      (d.getD (i * 8 + 4) 0) (d.getD (i * 8 + 5) 0)
      (d.getD (i * 8 + 6) 0) (d.getD (i * 8 + 7) 0))
    (msgWord512 d) 80 16 0 (List.replicate 80 0)
    (by simp) (by omega) (by omega) ?_
  · have h2 := foldl_set_sched
      (fun w i =>
        add64
          (add64
            (add64 (w.getD (i - 16) 0)
              (rotr64 (w.getD (i - 15) 0) 1 ^^^ rotr64 (w.getD (i - 15) 0) 8 ^^^
                (w.getD (i - 15) 0 >>> 7)))
            (w.getD (i - 7) 0))
          (rotr64 (w.getD (i - 2) 0) 19 ^^^ rotr64 (w.getD (i - 2) 0) 61 ^^^
            (w.getD (i - 2) 0 >>> 6)))
      (msgWord512 d) 80 64 16 (sha512_w_init d) h1.1 (by omega)
      (fun j hj => h1.2 j (by omega)) ?_
    · intro j hj
      exact h2.2 j (by omega)
    · intro w i h16 hi _ hlow
      dsimp only
      rw [hlow (i - 16) (by omega), hlow (i - 15) (by omega),
        hlow (i - 7) (by omega), hlow (i - 2) (by omega)]
      rw [msgWord512_rec d i (by omega)]
      simp only [sigma0_512, sigma1_512]
  · intro _ i _ hi _ _
    dsimp only
    rw [msgWord512_base d i (by omega)]

lemma sha512_round_code_eq (d : List Nat) (v : Hash8) (i : Nat) (hi : i < 80) :
    sha512_round_code (sha512_w_extend (sha512_w_init d)) v i =
    sha512_round_spec (msgWord512 d) v i := by
  simp only [sha512_round_code, sha512_round_spec, sha512_sched_eq d i hi,
    bigSigma0_512, bigSigma1_512, ch64, maj64]

/-- The generic transform equals the spec's algorithm of record (SHA-512). -/
lemma sha512_transform_eq_spec (s : Sha512State) (d : List Nat) :
    sha512_transform_generic s d = sha512_spec_transform s d := by
  simp only [sha512_transform_generic, sha512_spec_transform]
  have hfold : (List.range 80).foldl
      (sha512_round_code (sha512_w_extend (sha512_w_init d)))
      ⟨s.h0, s.h1, s.h2, s.h3, s.h4, s.h5, s.h6, s.h7⟩ =
      (List.range 80).foldl (sha512_round_spec (msgWord512 d))
      ⟨s.h0, s.h1, s.h2, s.h3, s.h4, s.h5, s.h6, s.h7⟩ := by
    refine foldl_congr_mem _ _ _ _ ?_
    intro v i hi
    exact sha512_round_code_eq d v i (List.mem_range.mp hi)
  rw [hfold]

/-! ## Incremental hashers (Sha256 / Sha512 contexts) -/

/-- The `while pos + 64 <= data.len()` loop of `Sha256::update`: compress
every leading full 64-byte block, return the final state and the leftover. -/
def sha256_blocks (s : Sha256State) (l : List Nat) : Sha256State × List Nat :=
  if 64 ≤ l.length then
    sha256_blocks (sha256_transform_generic s (l.take 64)) (l.drop 64)
  else (s, l)
termination_by l.length
decreasing_by simp [List.length_drop]; omega

/-- The `while pos + 128 <= data.len()` loop of `Sha512::update`. -/
def sha512_blocks (s : Sha512State) (l : List Nat) : Sha512State × List Nat :=
  if 128 ≤ l.length then
    sha512_blocks (sha512_transform_generic s (l.take 128)) (l.drop 128)
  else (s, l)
termination_by l.length
decreasing_by simp [List.length_drop]; omega

/-- The `Sha256` hashing context: chaining state, 64-byte residual buffer,
count of valid buffer bytes, and the `u64` total-length counter. -/
structure Sha256Ctx where
  state : Sha256State
  buffer : List Nat
  buffer_len : Nat
  total_len : Nat
deriving DecidableEq, Repr

/-- `Sha256::new`. -/
def sha256_new : Sha256Ctx :=
  ⟨sha256_init_state, List.replicate 64 0, 0, 0⟩

/-- `Sha256::update`: top up the residual buffer (compressing it if it
fills), compress every further full block straight from the input, and
stash the remainder in the buffer. -/
def sha256_update (c : Sha256Ctx) (data : List Nat) : Sha256Ctx :=
  let total_len := (c.total_len + data.length) % M64
  let p1 : Sha256Ctx × Nat :=
    if 0 < c.buffer_len then
      let to_copy := min (64 - c.buffer_len) data.length
      let buf := listCopyAt c.buffer c.buffer_len (data.take to_copy)
      let blen := c.buffer_len + to_copy
      if blen = 64 then
        (⟨sha256_transform_generic c.state buf, buf, 0, total_len⟩, to_copy)
      else
        (⟨c.state, buf, blen, total_len⟩, to_copy)
    else
      (⟨c.state, c.buffer, c.buffer_len, total_len⟩, 0)
  let p2 := sha256_blocks p1.1.state (data.drop p1.2)
  if 0 < p2.2.length then
    ⟨p2.1, listCopyAt p1.1.buffer 0 p2.2, p2.2.length, total_len⟩
  else
    ⟨p2.1, p1.1.buffer, p1.1.buffer_len, total_len⟩

/-- The `u64` bit-length computation `self.total_len * 8` in
`Sha256::finalize`. -/
def sha256_bit_len (total : Nat) : Nat := (total * 8) % M64

/-- `Sha256::finalize`: write the `0x80` terminator, zero-fill (compressing
an extra block when the length field does not fit), write the 8-byte
big-endian bit length, compress, and serialize the state big-endian. -/
def sha256_finalize (c : Sha256Ctx) : List Nat :=
  let bit_len := sha256_bit_len c.total_len
  let buf1 := c.buffer.set c.buffer_len 0x80
  let blen1 := c.buffer_len + 1
  let sb : Sha256State × List Nat × Nat :=
    if 56 < blen1 then
      (sha256_transform_generic c.state (zeroFill buf1 blen1 64), zeroFill buf1 blen1 64, 0)
    else
      (c.state, buf1, blen1)
  let buf2 := zeroFill sb.2.1 sb.2.2 56
  let buf3 := listCopyAt buf2 56 (beBytes 8 bit_len)
  let fs := sha256_transform_generic sb.1 buf3
  beBytes 4 fs.h0 ++ beBytes 4 fs.h1 ++ beBytes 4 fs.h2 ++ beBytes 4 fs.h3 ++
  beBytes 4 fs.h4 ++ beBytes 4 fs.h5 ++ beBytes 4 fs.h6 ++ beBytes 4 fs.h7

/-- The `Sha512` hashing context: chaining state, 128-byte residual buffer,
count of valid buffer bytes, and the `u128` total-length counter. -/
structure Sha512Ctx where
  state : Sha512State
  buffer : List Nat
  buffer_len : Nat
  total_len : Nat
deriving DecidableEq, Repr

/-- `Sha512::new`. -/
def sha512_new : Sha512Ctx :=
  ⟨sha512_init_state, List.replicate 128 0, 0, 0⟩

/-- `Sha512::update`. -/
def sha512_update (c : Sha512Ctx) (data : List Nat) : Sha512Ctx :=
  let total_len := (c.total_len + data.length) % M128
  let p1 : Sha512Ctx × Nat :=
    if 0 < c.buffer_len then
      let to_copy := min (128 - c.buffer_len) data.length
      let buf := listCopyAt c.buffer c.buffer_len (data.take to_copy)
      let blen := c.buffer_len + to_copy
      if blen = 128 then
        (⟨sha512_transform_generic c.state buf, buf, 0, total_len⟩, to_copy)
      else
        (⟨c.state, buf, blen, total_len⟩, to_copy)
    else
      (⟨c.state, c.buffer, c.buffer_len, total_len⟩, 0)
  let p2 := sha512_blocks p1.1.state (data.drop p1.2)
  if 0 < p2.2.length then
    ⟨p2.1, listCopyAt p1.1.buffer 0 p2.2, p2.2.length, total_len⟩
  else
    ⟨p2.1, p1.1.buffer, p1.1.buffer_len, total_len⟩

/-- The `u128` bit-length computation `self.total_len * 8` in
`Sha512::finalize`. -/
def sha512_bit_len (total : Nat) : Nat := (total * 8) % M128

/-- `Sha512::finalize`: `0x80` terminator, zero fill (with an extra
compressed block when the 16-byte length field does not fit), 16-byte
big-endian bit length, final compression, big-endian serialization. -/
def sha512_finalize (c : Sha512Ctx) : List Nat :=
  let bit_len := sha512_bit_len c.total_len
  let buf1 := c.buffer.set c.buffer_len 0x80
  let blen1 := c.buffer_len + 1
  let sb : Sha512State × List Nat × Nat :=
    if 112 < blen1 then
      (sha512_transform_generic c.state (zeroFill buf1 blen1 128), zeroFill buf1 blen1 128, 0)
    else
      (c.state, buf1, blen1)
  let buf2 := zeroFill sb.2.1 sb.2.2 112
  let buf3 := listCopyAt buf2 112 (beBytes 16 bit_len)
  let fs := sha512_transform_generic sb.1 buf3
  beBytes 8 fs.h0 ++ beBytes 8 fs.h1 ++ beBytes 8 fs.h2 ++ beBytes 8 fs.h3 ++
  beBytes 8 fs.h4 ++ beBytes 8 fs.h5 ++ beBytes 8 fs.h6 ++ beBytes 8 fs.h7

/-! ## Facts about the block-consuming loops -/

lemma length_beBytes : ∀ (k n : Nat), (beBytes k n).length = k
  | 0, _ => rfl
  | k + 1, n => by simp [beBytes, length_beBytes k]

lemma beBytes_mod : ∀ (k n : Nat), beBytes k (n % 256 ^ k) = beBytes k n
  | 0, _ => rfl
  | k + 1, n => by
    have hdvd : (256 : Nat) ∣ 256 ^ (k + 1) := dvd_pow_self 256 (Nat.succ_ne_zero k)
    have hdiv : n % 256 ^ (k + 1) / 256 = n / 256 % 256 ^ k := by
      have := Nat.mod_mul_right_div_self n 256 (256 ^ k)
      simpa [Nat.pow_succ, Nat.mul_comm] using this
    simp [beBytes, hdiv, Nat.mod_mod_of_dvd n hdvd, beBytes_mod k]

lemma sha256_blocks_small (s : Sha256State) (l : List Nat) (h : l.length < 64) :
    sha256_blocks s l = (s, l) := by
  rw [sha256_blocks]
  simp [Nat.not_le.mpr h]

lemma sha256_blocks_big (s : Sha256State) (l : List Nat) (h : 64 ≤ l.length) :
    sha256_blocks s l =
      sha256_blocks (sha256_transform_generic s (l.take 64)) (l.drop 64) := by
  conv_lhs => rw [sha256_blocks]
  simp [h]

lemma sha512_blocks_small (s : Sha512State) (l : List Nat) (h : l.length < 128) :
    sha512_blocks s l = (s, l) := by
  rw [sha512_blocks]
  simp [Nat.not_le.mpr h]

lemma sha512_blocks_big (s : Sha512State) (l : List Nat) (h : 128 ≤ l.length) :
    sha512_blocks s l =
      sha512_blocks (sha512_transform_generic s (l.take 128)) (l.drop 128) := by
  conv_lhs => rw [sha512_blocks]
  simp [h]

lemma sha256_blocks_len_aux : ∀ (n : Nat) (l : List Nat) (s : Sha256State),
    l.length ≤ n → (sha256_blocks s l).2.length = l.length % 64 := by
  intro n
  induction n with
  | zero =>
    intro l s hl
    rw [sha256_blocks_small s l (by omega)]
    dsimp only
    omega
  | succ n ih =>
    intro l s hl
    rcases Nat.lt_or_ge l.length 64 with h | h
    · rw [sha256_blocks_small s l h]; dsimp only; omega
    · rw [sha256_blocks_big s l h]
      rw [ih (l.drop 64) _ (by simp [List.length_drop]; omega)]
      simp [List.length_drop]
      omega

lemma sha256_blocks_len (s : Sha256State) (l : List Nat) :
    (sha256_blocks s l).2.length = l.length % 64 :=
  sha256_blocks_len_aux l.length l s (Nat.le_refl _)

lemma sha512_blocks_len_aux : ∀ (n : Nat) (l : List Nat) (s : Sha512State),
    l.length ≤ n → (sha512_blocks s l).2.length = l.length % 128 := by
  intro n
  induction n with
  | zero =>
    intro l s hl
    rw [sha512_blocks_small s l (by omega)]
    dsimp only
    omega
  | succ n ih =>
    intro l s hl
    rcases Nat.lt_or_ge l.length 128 with h | h
    · rw [sha512_blocks_small s l h]; dsimp only; omega
    · rw [sha512_blocks_big s l h]
      rw [ih (l.drop 128) _ (by simp [List.length_drop]; omega)]
      simp [List.length_drop]
      omega

lemma sha512_blocks_len (s : Sha512State) (l : List Nat) :
    (sha512_blocks s l).2.length = l.length % 128 :=
  sha512_blocks_len_aux l.length l s (Nat.le_refl _)

lemma sha256_blocks_append_aux : ∀ (n : Nat) (l m : List Nat) (s : Sha256State),
    l.length ≤ n →
    sha256_blocks s (l ++ m) =
      sha256_blocks (sha256_blocks s l).1 ((sha256_blocks s l).2 ++ m) := by
  intro n
  induction n with
  | zero =>
    intro l m s hl
    have hnil : l = [] := List.eq_nil_of_length_eq_zero (by omega)
    subst hnil
    rw [sha256_blocks_small s [] (by simp)]
  | succ n ih =>
    intro l m s hl
    rcases Nat.lt_or_ge l.length 64 with h | h
    · rw [sha256_blocks_small s l h]
    · rw [sha256_blocks_big s l h]
      have htake : (l ++ m).take 64 = l.take 64 := List.take_append_of_le_length h
      have hdrop : (l ++ m).drop 64 = l.drop 64 ++ m := List.drop_append_of_le_length h
      rw [sha256_blocks_big s (l ++ m) (by simp; omega), htake, hdrop]
      exact ih (l.drop 64) m _ (by simp [List.length_drop]; omega)

lemma sha256_blocks_append (s : Sha256State) (l m : List Nat) :
    sha256_blocks s (l ++ m) =
      sha256_blocks (sha256_blocks s l).1 ((sha256_blocks s l).2 ++ m) :=
  sha256_blocks_append_aux l.length l m s (Nat.le_refl _)

lemma sha512_blocks_append_aux : ∀ (n : Nat) (l m : List Nat) (s : Sha512State),
    l.length ≤ n →
    sha512_blocks s (l ++ m) =
      sha512_blocks (sha512_blocks s l).1 ((sha512_blocks s l).2 ++ m) := by
  intro n
  induction n with
  | zero =>
    intro l m s hl
    have hnil : l = [] := List.eq_nil_of_length_eq_zero (by omega)
    subst hnil
    rw [sha512_blocks_small s [] (by simp)]
  | succ n ih =>
    intro l m s hl
    rcases Nat.lt_or_ge l.length 128 with h | h
    · rw [sha512_blocks_small s l h]
    · rw [sha512_blocks_big s l h]
      have htake : (l ++ m).take 128 = l.take 128 := List.take_append_of_le_length h
      have hdrop : (l ++ m).drop 128 = l.drop 128 ++ m := List.drop_append_of_le_length h
      rw [sha512_blocks_big s (l ++ m) (by simp; omega), htake, hdrop]
      exact ih (l.drop 128) m _ (by simp [List.length_drop]; omega)

lemma sha512_blocks_append (s : Sha512State) (l m : List Nat) :
    sha512_blocks s (l ++ m) =
      sha512_blocks (sha512_blocks s l).1 ((sha512_blocks s l).2 ++ m) :=
  sha512_blocks_append_aux l.length l m s (Nat.le_refl _)

/-! ## Buffer-splicing lemmas -/

lemma listCopyAt_zero (l v : List Nat) : listCopyAt l 0 v = v ++ l.drop v.length := by
  simp [listCopyAt]

lemma length_listCopyAt (l v : List Nat) (i : Nat) (h : i + v.length ≤ l.length) :
    (listCopyAt l i v).length = l.length := by
  simp [listCopyAt, List.length_take, List.length_drop]
  omega

lemma take_listCopyAt (l v : List Nat) (i : Nat) (h : i ≤ l.length) :
    (listCopyAt l i v).take (i + v.length) = l.take i ++ v := by
  have h1 : (l.take i).length = i := by simp [List.length_take]; omega
  simp only [listCopyAt, List.append_assoc]
  rw [List.take_append_eq_append_take, h1]
  rw [List.take_of_length_le (by omega : (l.take i).length ≤ i + v.length)]
  congr 1
  have h2 : i + v.length - i = v.length := by omega
  rw [h2, List.take_append_of_le_length (Nat.le_refl _), List.take_length]

lemma listCopyAt_exact (l v : List Nat) (i : Nat) (h : i + v.length = l.length) :
    listCopyAt l i v = l.take i ++ v := by
  simp [listCopyAt, h, List.drop_length]

lemma set_eq_parts (l : List Nat) (n a : Nat) (h : n < l.length) :
    l.set n a = l.take n ++ a :: l.drop (n + 1) := by
  rw [List.set_eq_take_append_cons_drop]
  simp [h]

/-! ## Reachable-state characterization of the incremental hashers -/

/-- Characterization of a `Sha256Ctx` that has absorbed exactly the byte
stream `S`: the chaining state is the fold of the transform over the full
blocks of `S`, the valid buffer bytes are the leftover, and the counters
record `S.length`. -/
def sha256_Rep (c : Sha256Ctx) (S : List Nat) : Prop :=
  c.state = (sha256_blocks sha256_init_state S).1 ∧
  c.buffer.take c.buffer_len = (sha256_blocks sha256_init_state S).2 ∧
  c.buffer_len = S.length % 64 ∧
  c.total_len = S.length % M64 ∧
  c.buffer.length = 64

lemma sha256_new_rep : sha256_Rep sha256_new [] := by
  have h := sha256_blocks_small sha256_init_state [] (by simp)
  refine ⟨?_, ?_, ?_, ?_, ?_⟩ <;> simp [sha256_new, h, M64]

lemma sha256_update_rep (c : Sha256Ctx) (S d : List Nat) (hrep : sha256_Rep c S) :
    sha256_Rep (sha256_update c d) (S ++ d) := by
  obtain ⟨hst, hbuf, hbl, htot, hlen⟩ := hrep
  have hbllt : c.buffer_len < 64 := by omega
  have habs := sha256_blocks_append sha256_init_state S d
  rw [← hst] at habs
  rw [← hbuf] at habs
  have htot' : (c.total_len + d.length) % M64 = (S ++ d).length % M64 := by
    rw [htot, Nat.mod_add_mod, List.length_append]
  by_cases h0 : 0 < c.buffer_len
  · -- the residual buffer is non-empty
    by_cases hfill : c.buffer_len + min (64 - c.buffer_len) d.length = 64
    · -- the buffer fills up and is compressed
      have htc : min (64 - c.buffer_len) d.length = 64 - c.buffer_len := by omega
      have htclen : 64 - c.buffer_len ≤ d.length := by omega
      have hbuffull :
          listCopyAt c.buffer c.buffer_len (d.take (min (64 - c.buffer_len) d.length)) =
            c.buffer.take c.buffer_len ++ d.take (64 - c.buffer_len) := by
        rw [htc]
        refine listCopyAt_exact _ _ _ ?_
        rw [hlen, List.length_take]
        omega
      have hblocks : sha256_blocks c.state (c.buffer.take c.buffer_len ++ d) =
          sha256_blocks
            (sha256_transform_generic c.state
              (c.buffer.take c.buffer_len ++ d.take (64 - c.buffer_len)))
            (d.drop (64 - c.buffer_len)) := by
        have hrl : (c.buffer.take c.buffer_len).length = c.buffer_len := by
          simp [List.length_take, hlen]
          omega
        have h64 : 64 ≤ (c.buffer.take c.buffer_len ++ d).length := by
          rw [List.length_append, hrl]
          omega
        have ht : (c.buffer.take c.buffer_len ++ d).take 64 =
            c.buffer.take c.buffer_len ++ d.take (64 - c.buffer_len) := by
          rw [List.take_append_eq_append_take, hrl,
            List.take_of_length_le (by rw [hrl]; omega)]
        have hd : (c.buffer.take c.buffer_len ++ d).drop 64 =
            d.drop (64 - c.buffer_len) := by
          rw [List.drop_append_eq_append_drop, hrl,
            List.drop_of_length_le (by rw [hrl]; omega)]
          simp
        rw [sha256_blocks_big _ _ h64, ht, hd]
      simp only [sha256_update, if_pos h0, if_pos hfill]
      rw [hbuffull, htc]
      by_cases hres :
          0 < (sha256_blocks
            (sha256_transform_generic c.state
              (c.buffer.take c.buffer_len ++ d.take (64 - c.buffer_len)))
            (d.drop (64 - c.buffer_len))).2.length
      · rw [if_pos hres]
        have hreslen := sha256_blocks_len
          (sha256_transform_generic c.state
            (c.buffer.take c.buffer_len ++ d.take (64 - c.buffer_len)))
          (d.drop (64 - c.buffer_len))
        rw [List.length_drop] at hreslen
        refine ⟨?_, ?_, ?_, ?_, ?_⟩
        · dsimp only
          rw [habs, hblocks]
        · dsimp only
          rw [habs, hblocks, listCopyAt_zero, List.take_left]
        · dsimp only
          rw [hreslen, List.length_append]
          omega
        · exact htot'
        · dsimp only
          rw [listCopyAt_zero, List.length_append, List.length_drop,
            List.length_append, List.length_take, List.length_take, hlen]
          omega
      · rw [if_neg hres]
        have hreslen := sha256_blocks_len
          (sha256_transform_generic c.state
            (c.buffer.take c.buffer_len ++ d.take (64 - c.buffer_len)))
          (d.drop (64 - c.buffer_len))
        rw [List.length_drop] at hreslen
        have hresnil :
            (sha256_blocks
              (sha256_transform_generic c.state
                (c.buffer.take c.buffer_len ++ d.take (64 - c.buffer_len)))
              (d.drop (64 - c.buffer_len))).2 = [] :=
          List.eq_nil_of_length_eq_zero (by omega)
        refine ⟨?_, ?_, ?_, ?_, ?_⟩
        · dsimp only
          rw [habs, hblocks]
        · dsimp only
          rw [habs, hblocks, hresnil, List.take_zero]
        · dsimp only
          rw [List.length_append]
          omega
        · exact htot'
        · dsimp only
          rw [List.length_append, List.length_take, List.length_take, hlen]
          omega
    · -- the buffer takes all of `d` and stays partial
      have htc : min (64 - c.buffer_len) d.length = d.length := by omega
      have hdlt : c.buffer_len + d.length < 64 := by omega
      have hbufpart :
          listCopyAt c.buffer c.buffer_len (d.take (min (64 - c.buffer_len) d.length)) =
            c.buffer.take c.buffer_len ++ d ++ c.buffer.drop (c.buffer_len + d.length) := by
        rw [htc, List.take_length, listCopyAt]
      have hsmall : sha256_blocks c.state (c.buffer.take c.buffer_len ++ d) =
          (c.state, c.buffer.take c.buffer_len ++ d) := by
        refine sha256_blocks_small _ _ ?_
        rw [List.length_append, List.length_take, hlen]
        omega
      simp only [sha256_update, if_pos h0, if_neg hfill]
      rw [htc, List.take_length, List.drop_length]
      rw [sha256_blocks_small _ [] (by simp)]
      dsimp only
      rw [if_neg (by simp)]
      refine ⟨?_, ?_, ?_, ?_, ?_⟩
      · dsimp only
        rw [habs, hsmall]
      · dsimp only
        rw [habs, hsmall]
        dsimp only
        exact take_listCopyAt c.buffer d c.buffer_len (by rw [hlen]; omega)
      · dsimp only
        rw [List.length_append]
        omega
      · exact htot'
      · dsimp only
        rw [length_listCopyAt]
        · exact hlen
        · rw [hlen]
          omega
  · -- empty residual buffer
    have hbl0 : c.buffer_len = 0 := by omega
    have hr0 : c.buffer.take c.buffer_len = [] := by rw [hbl0, List.take_zero]
    rw [hr0, List.nil_append] at habs
    simp only [sha256_update, if_neg h0]
    rw [List.drop_zero]
    have hreslen := sha256_blocks_len c.state d
    by_cases hres : 0 < (sha256_blocks c.state d).2.length
    · rw [if_pos hres]
      refine ⟨?_, ?_, ?_, ?_, ?_⟩
      · dsimp only
        rw [habs]
      · dsimp only
        rw [habs, listCopyAt_zero, List.take_left]
      · dsimp only
        rw [hreslen, List.length_append]
        omega
      · exact htot'
      · dsimp only
        rw [listCopyAt_zero, List.length_append, List.length_drop, hlen, hreslen]
        omega
    · rw [if_neg hres]
      have hresnil : (sha256_blocks c.state d).2 = [] :=
        List.eq_nil_of_length_eq_zero (by omega)
      refine ⟨?_, ?_, ?_, ?_, ?_⟩
      · dsimp only
        rw [habs]
      · dsimp only
        rw [habs, hresnil, hr0]
      · dsimp only
        rw [hbl0, List.length_append]
        omega
      · exact htot'
      · exact hlen

/-- Characterization of a `Sha512Ctx` that has absorbed exactly the byte
stream `S`: the chaining state is the fold of the transform over the full
blocks of `S`, the valid buffer bytes are the leftover, and the counters
record `S.length`. -/
def sha512_Rep (c : Sha512Ctx) (S : List Nat) : Prop :=
  c.state = (sha512_blocks sha512_init_state S).1 ∧
  c.buffer.take c.buffer_len = (sha512_blocks sha512_init_state S).2 ∧
  c.buffer_len = S.length % 128 ∧
  c.total_len = S.length % M128 ∧
  c.buffer.length = 128

lemma sha512_new_rep : sha512_Rep sha512_new [] := by
  have h := sha512_blocks_small sha512_init_state [] (by simp)
  refine ⟨?_, ?_, ?_, ?_, ?_⟩ <;> simp [sha512_new, h, M128]

lemma sha512_update_rep (c : Sha512Ctx) (S d : List Nat) (hrep : sha512_Rep c S) :
    sha512_Rep (sha512_update c d) (S ++ d) := by
  obtain ⟨hst, hbuf, hbl, htot, hlen⟩ := hrep
  have hbllt : c.buffer_len < 128 := by omega
  have habs := sha512_blocks_append sha512_init_state S d
  rw [← hst] at habs
  rw [← hbuf] at habs
  have htot' : (c.total_len + d.length) % M128 = (S ++ d).length % M128 := by
    rw [htot, Nat.mod_add_mod, List.length_append]
  by_cases h0 : 0 < c.buffer_len
  · -- the residual buffer is non-empty
    by_cases hfill : c.buffer_len + min (128 - c.buffer_len) d.length = 128
    · -- the buffer fills up and is compressed
      have htc : min (128 - c.buffer_len) d.length = 128 - c.buffer_len := by omega
      have htclen : 128 - c.buffer_len ≤ d.length := by omega
      have hbuffull :
          listCopyAt c.buffer c.buffer_len (d.take (min (128 - c.buffer_len) d.length)) =
            c.buffer.take c.buffer_len ++ d.take (128 - c.buffer_len) := by
        rw [htc]
        refine listCopyAt_exact _ _ _ ?_
        rw [hlen, List.length_take]
        omega
      have hblocks : sha512_blocks c.state (c.buffer.take c.buffer_len ++ d) =
          sha512_blocks
            (sha512_transform_generic c.state
              (c.buffer.take c.buffer_len ++ d.take (128 - c.buffer_len)))
            (d.drop (128 - c.buffer_len)) := by
        have hrl : (c.buffer.take c.buffer_len).length = c.buffer_len := by
          simp [List.length_take, hlen]
          omega
        have h64 : 128 ≤ (c.buffer.take c.buffer_len ++ d).length := by
          rw [List.length_append, hrl]
          omega
        have ht : (c.buffer.take c.buffer_len ++ d).take 128 =
            c.buffer.take c.buffer_len ++ d.take (128 - c.buffer_len) := by
          rw [List.take_append_eq_append_take, hrl,
            List.take_of_length_le (by rw [hrl]; omega)]
        have hd : (c.buffer.take c.buffer_len ++ d).drop 128 =
            d.drop (128 - c.buffer_len) := by
          rw [List.drop_append_eq_append_drop, hrl,
            List.drop_of_length_le (by rw [hrl]; omega)]
          simp
        rw [sha512_blocks_big _ _ h64, ht, hd]
      simp only [sha512_update, if_pos h0, if_pos hfill]
      rw [hbuffull, htc]
      by_cases hres :
          0 < (sha512_blocks
            (sha512_transform_generic c.state
              (c.buffer.take c.buffer_len ++ d.take (128 - c.buffer_len)))
            (d.drop (128 - c.buffer_len))).2.length
      · rw [if_pos hres]
        have hreslen := sha512_blocks_len
          (sha512_transform_generic c.state
            (c.buffer.take c.buffer_len ++ d.take (128 - c.buffer_len)))
          (d.drop (128 - c.buffer_len))
        rw [List.length_drop] at hreslen
        refine ⟨?_, ?_, ?_, ?_, ?_⟩
        · dsimp only
          rw [habs, hblocks]
        · dsimp only
          rw [habs, hblocks, listCopyAt_zero, List.take_left]
        · dsimp only
          rw [hreslen, List.length_append]
          omega
        · exact htot'
        · dsimp only
          rw [listCopyAt_zero, List.length_append, List.length_drop,
            List.length_append, List.length_take, List.length_take, hlen]
          omega
      · rw [if_neg hres]
        have hreslen := sha512_blocks_len
          (sha512_transform_generic c.state
            (c.buffer.take c.buffer_len ++ d.take (128 - c.buffer_len)))
          (d.drop (128 - c.buffer_len))
        rw [List.length_drop] at hreslen
        have hresnil :
            (sha512_blocks
              (sha512_transform_generic c.state
                (c.buffer.take c.buffer_len ++ d.take (128 - c.buffer_len)))
              (d.drop (128 - c.buffer_len))).2 = [] :=
          List.eq_nil_of_length_eq_zero (by omega)
        refine ⟨?_, ?_, ?_, ?_, ?_⟩
        · dsimp only
          rw [habs, hblocks]
        · dsimp only
          rw [habs, hblocks, hresnil, List.take_zero]
        · dsimp only
          rw [List.length_append]
          omega
        · exact htot'
        · dsimp only
          rw [List.length_append, List.length_take, List.length_take, hlen]
          omega
    · -- the buffer takes all of `d` and stays partial
      have htc : min (128 - c.buffer_len) d.length = d.length := by omega
      have hdlt : c.buffer_len + d.length < 128 := by omega
      have hbufpart :
          listCopyAt c.buffer c.buffer_len (d.take (min (128 - c.buffer_len) d.length)) =
            c.buffer.take c.buffer_len ++ d ++ c.buffer.drop (c.buffer_len + d.length) := by
        rw [htc, List.take_length, listCopyAt]
      have hsmall : sha512_blocks c.state (c.buffer.take c.buffer_len ++ d) =
          (c.state, c.buffer.take c.buffer_len ++ d) := by
        refine sha512_blocks_small _ _ ?_
        rw [List.length_append, List.length_take, hlen]
        omega
      simp only [sha512_update, if_pos h0, if_neg hfill]
      rw [htc, List.take_length, List.drop_length]
      rw [sha512_blocks_small _ [] (by simp)]
      dsimp only
      rw [if_neg (by simp)]
      refine ⟨?_, ?_, ?_, ?_, ?_⟩
      · dsimp only
        rw [habs, hsmall]
      · dsimp only
        rw [habs, hsmall]
        dsimp only
        exact take_listCopyAt c.buffer d c.buffer_len (by rw [hlen]; omega)
      · dsimp only
        rw [List.length_append]
        omega
      · exact htot'
      · dsimp only
        rw [length_listCopyAt]
        · exact hlen
        · rw [hlen]
          omega
  · -- empty residual buffer
    have hbl0 : c.buffer_len = 0 := by omega
    have hr0 : c.buffer.take c.buffer_len = [] := by rw [hbl0, List.take_zero]
    rw [hr0, List.nil_append] at habs
    simp only [sha512_update, if_neg h0]
    rw [List.drop_zero]
    have hreslen := sha512_blocks_len c.state d
    by_cases hres : 0 < (sha512_blocks c.state d).2.length
    · rw [if_pos hres]
      refine ⟨?_, ?_, ?_, ?_, ?_⟩
      · dsimp only
        rw [habs]
      · dsimp only
        rw [habs, listCopyAt_zero, List.take_left]
      · dsimp only
        rw [hreslen, List.length_append]
        omega
      · exact htot'
      · dsimp only
        rw [listCopyAt_zero, List.length_append, List.length_drop, hlen, hreslen]
        omega
    · rw [if_neg hres]
      have hresnil : (sha512_blocks c.state d).2 = [] :=
        List.eq_nil_of_length_eq_zero (by omega)
      refine ⟨?_, ?_, ?_, ?_, ?_⟩
      · dsimp only
        rw [habs]
      · dsimp only
        rw [habs, hresnil, hr0]
      · dsimp only
        rw [hbl0, List.length_append]
        omega
      · exact htot'
      · exact hlen

/-! ## Digest serialization and the padding characterization -/

/-- Big-endian word-by-word serialization of a SHA-256 state (the output
loop of `Sha256::finalize`). -/
def sha256_digest_bytes (s : Sha256State) : List Nat :=
  beBytes 4 s.h0 ++ beBytes 4 s.h1 ++ beBytes 4 s.h2 ++ beBytes 4 s.h3 ++
  beBytes 4 s.h4 ++ beBytes 4 s.h5 ++ beBytes 4 s.h6 ++ beBytes 4 s.h7

/-- Big-endian word-by-word serialization of a SHA-512 state (the output
loop of `Sha512::finalize`). -/
def sha512_digest_bytes (s : Sha512State) : List Nat :=
  beBytes 8 s.h0 ++ beBytes 8 s.h1 ++ beBytes 8 s.h2 ++ beBytes 8 s.h3 ++
  beBytes 8 s.h4 ++ beBytes 8 s.h5 ++ beBytes 8 s.h6 ++ beBytes 8 s.h7

/-- The final block(s) described by the spec for SHA-256: residue, `0x80`,
zero padding, and the 8-byte big-endian bit length; two blocks exactly when
the residue exceeds 55 bytes, one otherwise. -/
def sha256_pad_blocks (r : List Nat) (total : Nat) : List (List Nat) :=
  if 55 < r.length then
    [r ++ 0x80 :: List.replicate (64 - (r.length + 1)) 0,
     List.replicate 56 0 ++ beBytes 8 (total * 8)]
  else
    [r ++ 0x80 :: (List.replicate (56 - (r.length + 1)) 0 ++ beBytes 8 (total * 8))]

/-- The final block(s) described by the spec for SHA-512: residue, `0x80`,
zero padding, and the 16-byte big-endian bit length; two blocks exactly when
the residue exceeds 111 bytes, one otherwise. -/
def sha512_pad_blocks (r : List Nat) (total : Nat) : List (List Nat) :=
  if 111 < r.length then
    [r ++ 0x80 :: List.replicate (128 - (r.length + 1)) 0,
     List.replicate 112 0 ++ beBytes 16 (total * 8)]
  else
    [r ++ 0x80 :: (List.replicate (112 - (r.length + 1)) 0 ++ beBytes 16 (total * 8))]

lemma take_append_cons (xs : List Nat) (a : Nat) (ys : List Nat) :
    (xs ++ a :: ys).take (xs.length + 1) = xs ++ [a] := by
  rw [List.take_append_eq_append_take,
    List.take_of_length_le (by omega : xs.length ≤ xs.length + 1)]
  congr 1
  have h1 : xs.length + 1 - xs.length = 1 := by omega
  rw [h1]
  rfl

/-- `Sha256::finalize` produces exactly the digest of the spec's padding
blocks folded through the compression transform. -/
lemma sha256_finalize_eq_pad (c : Sha256Ctx) (hbl : c.buffer_len < 64)
    (hlen : c.buffer.length = 64) :
    sha256_finalize c =
      sha256_digest_bytes
        ((sha256_pad_blocks (c.buffer.take c.buffer_len) c.total_len).foldl
          sha256_transform_generic c.state) := by
  have hrlen : (c.buffer.take c.buffer_len).length = c.buffer_len := by
    simp [List.length_take, hlen]
    omega
  have hbe : beBytes 8 (sha256_bit_len c.total_len) = beBytes 8 (c.total_len * 8) := by
    rw [sha256_bit_len]
    have hM : M64 = 256 ^ 8 := by norm_num [M64]
    rw [hM]
    exact beBytes_mod 8 _
  have hbuf1 : c.buffer.set c.buffer_len 0x80 =
      c.buffer.take c.buffer_len ++ 0x80 :: c.buffer.drop (c.buffer_len + 1) :=
    set_eq_parts _ _ _ (by omega)
  have hbuf1len : (c.buffer.set c.buffer_len 0x80).length = 64 := by
    rw [List.length_set, hlen]
  have hbuf1take : (c.buffer.set c.buffer_len 0x80).take (c.buffer_len + 1) =
      c.buffer.take c.buffer_len ++ [0x80] := by
    rw [hbuf1]
    have h := take_append_cons (c.buffer.take c.buffer_len) 0x80
      (c.buffer.drop (c.buffer_len + 1))
    rwa [hrlen] at h
  by_cases hbig : 56 < c.buffer_len + 1
  · -- two final blocks
    have hA : zeroFill (c.buffer.set c.buffer_len 0x80) (c.buffer_len + 1) 64 =
        c.buffer.take c.buffer_len ++ 0x80 ::
          List.replicate (64 - (c.buffer_len + 1)) 0 := by
      rw [zeroFill, listCopyAt_exact _ _ _
        (by rw [hbuf1len, List.length_replicate]; omega), hbuf1take]
      simp [List.append_assoc]
    have hAlen : (c.buffer.take c.buffer_len ++ 0x80 ::
        List.replicate (64 - (c.buffer_len + 1)) 0).length = 64 := by
      simp [List.length_append, hrlen, List.length_replicate]
      omega
    have hB : zeroFill (c.buffer.take c.buffer_len ++ 0x80 ::
        List.replicate (64 - (c.buffer_len + 1)) 0) 0 56 =
        List.replicate 56 0 ++ (c.buffer.take c.buffer_len ++ 0x80 ::
          List.replicate (64 - (c.buffer_len + 1)) 0).drop 56 := by
      rw [zeroFill, Nat.sub_zero, listCopyAt_zero, List.length_replicate]
    have hdroplen : ((c.buffer.take c.buffer_len ++ 0x80 ::
        List.replicate (64 - (c.buffer_len + 1)) 0).drop 56).length = 8 := by
      rw [List.length_drop, hAlen]
    have htake56 : (List.replicate 56 (0:Nat) ++ (c.buffer.take c.buffer_len ++ 0x80 ::
        List.replicate (64 - (c.buffer_len + 1)) 0).drop 56).take 56 =
        List.replicate 56 (0:Nat) := by
      have h := List.take_left (List.replicate 56 (0:Nat))
        ((c.buffer.take c.buffer_len ++ 0x80 ::
          List.replicate (64 - (c.buffer_len + 1)) 0).drop 56)
      simpa using h
    have hdrop64 : (List.replicate 56 (0:Nat) ++ (c.buffer.take c.buffer_len ++ 0x80 ::
        List.replicate (64 - (c.buffer_len + 1)) 0).drop 56).drop
          (56 + (beBytes 8 (sha256_bit_len c.total_len)).length) = [] := by
      refine List.drop_of_length_le ?_
      rw [length_beBytes, List.length_append, List.length_replicate, hdroplen]
    simp only [sha256_finalize]
    rw [if_pos hbig]
    simp only
    rw [hA, hB, listCopyAt, htake56, hdrop64, hbe]
    rw [sha256_pad_blocks, if_pos (by rw [hrlen]; omega)]
    simp only [List.foldl_cons, List.foldl_nil, List.append_nil]
    rw [sha256_digest_bytes, hrlen]
  · -- one final block
    have hB : zeroFill (c.buffer.set c.buffer_len 0x80) (c.buffer_len + 1) 56 =
        (c.buffer.take c.buffer_len ++ [0x80]) ++
          List.replicate (56 - (c.buffer_len + 1)) 0 ++
          (c.buffer.set c.buffer_len 0x80).drop 56 := by
      rw [zeroFill, listCopyAt, hbuf1take, List.length_replicate]
      have h56 : c.buffer_len + 1 + (56 - (c.buffer_len + 1)) = 56 := by omega
      rw [h56]
    have hXlen : ((c.buffer.take c.buffer_len ++ [0x80]) ++
        List.replicate (56 - (c.buffer_len + 1)) 0).length = 56 := by
      simp [List.length_append, hrlen, List.length_replicate]
      omega
    have htake56 : (((c.buffer.take c.buffer_len ++ [0x80]) ++
        List.replicate (56 - (c.buffer_len + 1)) 0) ++
          (c.buffer.set c.buffer_len 0x80).drop 56).take 56 =
        (c.buffer.take c.buffer_len ++ [0x80]) ++
          List.replicate (56 - (c.buffer_len + 1)) 0 := by
      have h := List.take_left ((c.buffer.take c.buffer_len ++ [0x80]) ++
        List.replicate (56 - (c.buffer_len + 1)) 0)
        ((c.buffer.set c.buffer_len 0x80).drop 56)
      rwa [hXlen] at h
    have hdrop64 : (((c.buffer.take c.buffer_len ++ [0x80]) ++
        List.replicate (56 - (c.buffer_len + 1)) 0) ++
          (c.buffer.set c.buffer_len 0x80).drop 56).drop
          (56 + (beBytes 8 (sha256_bit_len c.total_len)).length) = [] := by
      refine List.drop_of_length_le ?_
      rw [length_beBytes, List.length_append, hXlen, List.length_drop, hbuf1len]
    simp only [sha256_finalize]
    rw [if_neg hbig]
    simp only
    rw [hB]
    rw [show ((c.buffer.take c.buffer_len ++ [0x80]) ++
          List.replicate (56 - (c.buffer_len + 1)) 0 ++
          (c.buffer.set c.buffer_len 0x80).drop 56) =
        (((c.buffer.take c.buffer_len ++ [0x80]) ++
          List.replicate (56 - (c.buffer_len + 1)) 0) ++
          (c.buffer.set c.buffer_len 0x80).drop 56) from by
      simp [List.append_assoc]]
    rw [listCopyAt, htake56, hdrop64, hbe]
    rw [sha256_pad_blocks, if_neg (by rw [hrlen]; omega)]
    simp only [List.foldl_cons, List.foldl_nil, List.append_nil]
    rw [sha256_digest_bytes, hrlen]
    simp [List.append_assoc]

/-- `Sha512::finalize` produces exactly the digest of the spec's padding
blocks folded through the compression transform. -/
lemma sha512_finalize_eq_pad (c : Sha512Ctx) (hbl : c.buffer_len < 128)
    (hlen : c.buffer.length = 128) :
    sha512_finalize c =
      sha512_digest_bytes
        ((sha512_pad_blocks (c.buffer.take c.buffer_len) c.total_len).foldl
          sha512_transform_generic c.state) := by
  have hrlen : (c.buffer.take c.buffer_len).length = c.buffer_len := by
    simp [List.length_take, hlen]
    omega
  have hbe : beBytes 16 (sha512_bit_len c.total_len) = beBytes 16 (c.total_len * 8) := by
    rw [sha512_bit_len]
    have hM : M128 = 256 ^ 16 := by norm_num [M128]
    rw [hM]
    exact beBytes_mod 16 _
  have hbuf1 : c.buffer.set c.buffer_len 0x80 =
      c.buffer.take c.buffer_len ++ 0x80 :: c.buffer.drop (c.buffer_len + 1) :=
    set_eq_parts _ _ _ (by omega)
  have hbuf1len : (c.buffer.set c.buffer_len 0x80).length = 128 := by
    rw [List.length_set, hlen]
  have hbuf1take : (c.buffer.set c.buffer_len 0x80).take (c.buffer_len + 1) =
      c.buffer.take c.buffer_len ++ [0x80] := by
    rw [hbuf1]
    have h := take_append_cons (c.buffer.take c.buffer_len) 0x80
      (c.buffer.drop (c.buffer_len + 1))
    rwa [hrlen] at h
  by_cases hbig : 112 < c.buffer_len + 1
  · -- two final blocks
    have hA : zeroFill (c.buffer.set c.buffer_len 0x80) (c.buffer_len + 1) 128 =
        c.buffer.take c.buffer_len ++ 0x80 ::
          List.replicate (128 - (c.buffer_len + 1)) 0 := by
      rw [zeroFill, listCopyAt_exact _ _ _
        (by rw [hbuf1len, List.length_replicate]; omega), hbuf1take]
      simp [List.append_assoc]
    have hAlen : (c.buffer.take c.buffer_len ++ 0x80 ::
        List.replicate (128 - (c.buffer_len + 1)) 0).length = 128 := by
      simp [List.length_append, hrlen, List.length_replicate]
      omega
    have hB : zeroFill (c.buffer.take c.buffer_len ++ 0x80 ::
        List.replicate (128 - (c.buffer_len + 1)) 0) 0 112 =
        List.replicate 112 0 ++ (c.buffer.take c.buffer_len ++ 0x80 ::
          List.replicate (128 - (c.buffer_len + 1)) 0).drop 112 := by
      rw [zeroFill, Nat.sub_zero, listCopyAt_zero, List.length_replicate]
    have hdroplen : ((c.buffer.take c.buffer_len ++ 0x80 ::
        List.replicate (128 - (c.buffer_len + 1)) 0).drop 112).length = 16 := by
      rw [List.length_drop, hAlen]
    have htake56 : (List.replicate 112 (0:Nat) ++ (c.buffer.take c.buffer_len ++ 0x80 ::
        List.replicate (128 - (c.buffer_len + 1)) 0).drop 112).take 112 =
        List.replicate 112 (0:Nat) := by
      have h := List.take_left (List.replicate 112 (0:Nat))
        ((c.buffer.take c.buffer_len ++ 0x80 ::
          List.replicate (128 - (c.buffer_len + 1)) 0).drop 112)
      simpa using h
    have hdrop64 : (List.replicate 112 (0:Nat) ++ (c.buffer.take c.buffer_len ++ 0x80 ::
        List.replicate (128 - (c.buffer_len + 1)) 0).drop 112).drop
          (112 + (beBytes 16 (sha512_bit_len c.total_len)).length) = [] := by
      refine List.drop_of_length_le ?_
      rw [length_beBytes, List.length_append, List.length_replicate, hdroplen]
    simp only [sha512_finalize]
    rw [if_pos hbig]
    simp only
    rw [hA, hB, listCopyAt, htake56, hdrop64, hbe]
    rw [sha512_pad_blocks, if_pos (by rw [hrlen]; omega)]
    simp only [List.foldl_cons, List.foldl_nil, List.append_nil]
    rw [sha512_digest_bytes, hrlen]
  · -- one final block
    have hB : zeroFill (c.buffer.set c.buffer_len 0x80) (c.buffer_len + 1) 112 =
        (c.buffer.take c.buffer_len ++ [0x80]) ++
          List.replicate (112 - (c.buffer_len + 1)) 0 ++
          (c.buffer.set c.buffer_len 0x80).drop 112 := by
      rw [zeroFill, listCopyAt, hbuf1take, List.length_replicate]
      have h56 : c.buffer_len + 1 + (112 - (c.buffer_len + 1)) = 112 := by omega
      rw [h56]
    have hXlen : ((c.buffer.take c.buffer_len ++ [0x80]) ++
        List.replicate (112 - (c.buffer_len + 1)) 0).length = 112 := by
      simp [List.length_append, hrlen, List.length_replicate]
      omega
    have htake56 : (((c.buffer.take c.buffer_len ++ [0x80]) ++
        List.replicate (112 - (c.buffer_len + 1)) 0) ++
          (c.buffer.set c.buffer_len 0x80).drop 112).take 112 =
        (c.buffer.take c.buffer_len ++ [0x80]) ++
          List.replicate (112 - (c.buffer_len + 1)) 0 := by
      have h := List.take_left ((c.buffer.take c.buffer_len ++ [0x80]) ++
        List.replicate (112 - (c.buffer_len + 1)) 0)
        ((c.buffer.set c.buffer_len 0x80).drop 112)
      rwa [hXlen] at h
    have hdrop64 : (((c.buffer.take c.buffer_len ++ [0x80]) ++
        List.replicate (112 - (c.buffer_len + 1)) 0) ++
          (c.buffer.set c.buffer_len 0x80).drop 112).drop
          (112 + (beBytes 16 (sha512_bit_len c.total_len)).length) = [] := by
      refine List.drop_of_length_le ?_
      rw [length_beBytes, List.length_append, hXlen, List.length_drop, hbuf1len]
    simp only [sha512_finalize]
    rw [if_neg hbig]
    simp only
    rw [hB]
    rw [show ((c.buffer.take c.buffer_len ++ [0x80]) ++
          List.replicate (112 - (c.buffer_len + 1)) 0 ++
          (c.buffer.set c.buffer_len 0x80).drop 112) =
        (((c.buffer.take c.buffer_len ++ [0x80]) ++
          List.replicate (112 - (c.buffer_len + 1)) 0) ++
          (c.buffer.set c.buffer_len 0x80).drop 112) from by
      simp [List.append_assoc]]
    rw [listCopyAt, htake56, hdrop64, hbe]
    rw [sha512_pad_blocks, if_neg (by rw [hrlen]; omega)]
    simp only [List.foldl_cons, List.foldl_nil, List.append_nil]
    rw [sha512_digest_bytes, hrlen]
    simp [List.append_assoc]

/-! ## Reachability over arbitrary update sequences -/

lemma sha256_foldl_rep : ∀ (chunks : List (List Nat)) (c : Sha256Ctx) (S : List Nat),
    sha256_Rep c S → sha256_Rep (chunks.foldl sha256_update c) (S ++ chunks.flatten)
  | [], c, S, h => by simpa using h
  | d :: t, c, S, h => by
    have h2 := sha256_foldl_rep t (sha256_update c d) (S ++ d)
      (sha256_update_rep c S d h)
    simpa [List.foldl_cons, List.flatten_cons, List.append_assoc] using h2

lemma sha256_run_rep (chunks : List (List Nat)) :
    sha256_Rep (chunks.foldl sha256_update sha256_new) chunks.flatten := by
  simpa using sha256_foldl_rep chunks sha256_new [] sha256_new_rep

lemma sha512_foldl_rep : ∀ (chunks : List (List Nat)) (c : Sha512Ctx) (S : List Nat),
    sha512_Rep c S → sha512_Rep (chunks.foldl sha512_update c) (S ++ chunks.flatten)
  | [], c, S, h => by simpa using h
  | d :: t, c, S, h => by
    have h2 := sha512_foldl_rep t (sha512_update c d) (S ++ d)
      (sha512_update_rep c S d h)
    simpa [List.foldl_cons, List.flatten_cons, List.append_assoc] using h2

lemma sha512_run_rep (chunks : List (List Nat)) :
    sha512_Rep (chunks.foldl sha512_update sha512_new) chunks.flatten := by
  simpa using sha512_foldl_rep chunks sha512_new [] sha512_new_rep

/-! ## Counting the compression invocations of one update call -/

/-- Number of `sha256_transform_generic` invocations performed by one
`Sha256::update` call: one if the residual buffer fills up, plus one per
full block consumed by the direct-block loop. -/
def sha256_update_count (c : Sha256Ctx) (d : List Nat) : Nat :=
  let p1 : Nat × Nat :=
    if 0 < c.buffer_len then
      let to_copy := min (64 - c.buffer_len) d.length
      (if c.buffer_len + to_copy = 64 then 1 else 0, to_copy)
    else (0, 0)
  p1.1 + (d.length - p1.2) / 64

/-- Number of `sha512_transform_generic` invocations performed by one
`Sha512::update` call. -/
def sha512_update_count (c : Sha512Ctx) (d : List Nat) : Nat :=
  let p1 : Nat × Nat :=
    if 0 < c.buffer_len then
      let to_copy := min (128 - c.buffer_len) d.length
      (if c.buffer_len + to_copy = 128 then 1 else 0, to_copy)
    else (0, 0)
  p1.1 + (d.length - p1.2) / 128

lemma sha256_update_count_eq (c : Sha256Ctx) (d : List Nat) (h : c.buffer_len < 64) :
    sha256_update_count c d = (c.buffer_len + d.length) / 64 := by
  simp only [sha256_update_count]
  by_cases h0 : 0 < c.buffer_len
  · rw [if_pos h0]
    by_cases hfill : c.buffer_len + min (64 - c.buffer_len) d.length = 64
    · rw [if_pos hfill]
      dsimp only
      omega
    · rw [if_neg hfill]
      dsimp only
      omega
  · rw [if_neg h0]
    dsimp only
    omega

lemma sha512_update_count_eq (c : Sha512Ctx) (d : List Nat) (h : c.buffer_len < 128) :
    sha512_update_count c d = (c.buffer_len + d.length) / 128 := by
  simp only [sha512_update_count]
  by_cases h0 : 0 < c.buffer_len
  · rw [if_pos h0]
    by_cases hfill : c.buffer_len + min (128 - c.buffer_len) d.length = 128
    · rw [if_pos hfill]
      dsimp only
      omega
    · rw [if_neg hfill]
      dsimp only
      omega
  · rw [if_neg h0]
    dsimp only
    omega

/-- Running a chunk sequence through `Sha256::update` while summing the
per-call compression counts. -/
def sha256_count_run (chunks : List (List Nat)) : Sha256Ctx × Nat :=
  chunks.foldl (fun p d => (sha256_update p.1 d, p.2 + sha256_update_count p.1 d))
    (sha256_new, 0)

/-- Running a chunk sequence through `Sha512::update` while summing the
per-call compression counts. -/
def sha512_count_run (chunks : List (List Nat)) : Sha512Ctx × Nat :=
  chunks.foldl (fun p d => (sha512_update p.1 d, p.2 + sha512_update_count p.1 d))
    (sha512_new, 0)

lemma sha256_count_invariant :
    ∀ (chunks : List (List Nat)) (c : Sha256Ctx) (n : Nat) (S : List Nat),
      sha256_Rep c S → 64 * n + c.buffer_len = S.length →
      sha256_Rep (chunks.foldl
        (fun p d => (sha256_update p.1 d, p.2 + sha256_update_count p.1 d)) (c, n)).1
        (S ++ chunks.flatten) ∧
      64 * (chunks.foldl
        (fun p d => (sha256_update p.1 d, p.2 + sha256_update_count p.1 d)) (c, n)).2 +
        (chunks.foldl
          (fun p d => (sha256_update p.1 d, p.2 + sha256_update_count p.1 d)) (c, n)).1.buffer_len =
        (S ++ chunks.flatten).length
  | [], c, n, S, hrep, hcnt => by
    constructor
    · simpa using hrep
    · simpa using hcnt
  | d :: t, c, n, S, hrep, hcnt => by
    have hbl : c.buffer_len < 64 := by
      have := hrep.2.2.1
      omega
    have hrep' := sha256_update_rep c S d hrep
    have hblen' : (sha256_update c d).buffer_len = (S.length + d.length) % 64 := by
      have := hrep'.2.2.1
      simpa [List.length_append] using this
    have hcnt' : 64 * (n + sha256_update_count c d) + (sha256_update c d).buffer_len =
        (S ++ d).length := by
      rw [sha256_update_count_eq c d hbl, hblen', List.length_append]
      have hmod := hrep.2.2.1
      omega
    have h2 := sha256_count_invariant t (sha256_update c d)
      (n + sha256_update_count c d) (S ++ d) hrep' hcnt'
    simpa [List.foldl_cons, List.flatten_cons, List.append_assoc] using h2

lemma sha512_count_invariant :
    ∀ (chunks : List (List Nat)) (c : Sha512Ctx) (n : Nat) (S : List Nat),
      sha512_Rep c S → 128 * n + c.buffer_len = S.length →
      sha512_Rep (chunks.foldl
        (fun p d => (sha512_update p.1 d, p.2 + sha512_update_count p.1 d)) (c, n)).1
        (S ++ chunks.flatten) ∧
      128 * (chunks.foldl
        (fun p d => (sha512_update p.1 d, p.2 + sha512_update_count p.1 d)) (c, n)).2 +
        (chunks.foldl
          (fun p d => (sha512_update p.1 d, p.2 + sha512_update_count p.1 d)) (c, n)).1.buffer_len =
        (S ++ chunks.flatten).length
  | [], c, n, S, hrep, hcnt => by
    constructor
    · simpa using hrep
    · simpa using hcnt
  | d :: t, c, n, S, hrep, hcnt => by
    have hbl : c.buffer_len < 128 := by
      have := hrep.2.2.1
      omega
    have hrep' := sha512_update_rep c S d hrep
    have hblen' : (sha512_update c d).buffer_len = (S.length + d.length) % 128 := by
      have := hrep'.2.2.1
      simpa [List.length_append] using this
    have hcnt' : 128 * (n + sha512_update_count c d) + (sha512_update c d).buffer_len =
        (S ++ d).length := by
      rw [sha512_update_count_eq c d hbl, hblen', List.length_append]
      have hmod := hrep.2.2.1
      omega
    have h2 := sha512_count_invariant t (sha512_update c d)
      (n + sha512_update_count c d) (S ++ d) hrep' hcnt'
    simpa [List.foldl_cons, List.flatten_cons, List.append_assoc] using h2

/-! ## Claim theorems: transforms and hasher behaviour -/

/-- C1: for every 8-word chaining state and every message block, the generic
compression transform computes the spec's algorithm of record — big-endian
word loading, the σ0/σ1 schedule recurrence with amounts 7/18/3, 17/19/10
(SHA-256) and 1/8/7, 19/61/6 (SHA-512), 64 resp. 80 rounds with
`temp1 = h + Σ1(e) + Ch(e,f,g) + K[i] + W[i]` and `temp2 = Σ0(a) + Maj(a,b,c)`,
and the wraparound word-wise feed-forward onto the original state. -/
theorem C1_generic_transform_is_algorithm_of_record :
    (∀ (s : Sha256State) (d : List Nat),
      sha256_transform_generic s d = sha256_spec_transform s d) ∧
    (∀ (s : Sha512State) (d : List Nat),
      sha512_transform_generic s d = sha512_spec_transform s d) :=
  ⟨sha256_transform_eq_spec, sha512_transform_eq_spec⟩

/-- C2: feeding any partition of a byte sequence chunk-by-chunk to the
hasher's update and then finalizing produces exactly the digest of a single
update of the concatenation, for both SHA-256 and SHA-512 (empty chunks and
the empty sequence included). -/
theorem C2_chunking_invariance :
    (∀ chunks : List (List Nat),
      sha256_finalize (chunks.foldl sha256_update sha256_new) =
        sha256_finalize (sha256_update sha256_new chunks.flatten)) ∧
    (∀ chunks : List (List Nat),
      sha512_finalize (chunks.foldl sha512_update sha512_new) =
        sha512_finalize (sha512_update sha512_new chunks.flatten)) := by
  constructor
  · intro chunks
    have h1 := sha256_run_rep chunks
    have h2 : sha256_Rep (sha256_update sha256_new chunks.flatten) chunks.flatten := by
      simpa using sha256_update_rep sha256_new [] chunks.flatten sha256_new_rep
    obtain ⟨s1, b1, l1, t1, n1⟩ := h1
    obtain ⟨s2, b2, l2, t2, n2⟩ := h2
    rw [sha256_finalize_eq_pad _ (by omega) n1,
      sha256_finalize_eq_pad _ (by omega) n2]
    rw [s1, s2, b1, b2, t1, t2]
  · intro chunks
    have h1 := sha512_run_rep chunks
    have h2 : sha512_Rep (sha512_update sha512_new chunks.flatten) chunks.flatten := by
      simpa using sha512_update_rep sha512_new [] chunks.flatten sha512_new_rep
    obtain ⟨s1, b1, l1, t1, n1⟩ := h1
    obtain ⟨s2, b2, l2, t2, n2⟩ := h2
    rw [sha512_finalize_eq_pad _ (by omega) n1,
      sha512_finalize_eq_pad _ (by omega) n2]
    rw [s1, s2, b1, b2, t1, t2]

lemma sha512_update_new_nil : sha512_update sha512_new [] = sha512_new := by
  have hb : sha512_blocks sha512_init_state [] = (sha512_init_state, []) :=
    sha512_blocks_small _ _ (by simp)
  simp [sha512_update, sha512_new, hb, M128]

set_option maxRecDepth 1000000 in
/-- C3 (counterexample): the hex string the spec quotes for the SHA-512
empty-message digest is wrong — finalizing a fresh hasher on the empty
input does not produce the spec's bytes (which read …8320a9… at offsets
58–60). -/
theorem C3_counterexample :
    sha512_finalize (sha512_update sha512_new []) ≠
      [0xcf, 0x83, 0xe1, 0x35, 0x7e, 0xef, 0xb8, 0xbd,
       0xf1, 0x54, 0x28, 0x50, 0xd6, 0x6d, 0x80, 0x07,
       0xd6, 0x20, 0xe4, 0x05, 0x0b, 0x57, 0x15, 0xdc,
       0x83, 0xf4, 0xa9, 0x21, 0xd3, 0x6c, 0xe9, 0xce,
       0x47, 0xd0, 0xd1, 0x3c, 0x5d, 0x85, 0xf2, 0xb0,
       0xff, 0x83, 0x18, 0xd2, 0x87, 0x7e, 0xec, 0x2f,
       0x63, 0xb9, 0x31, 0xbd, 0x47, 0x41, 0x7a, 0x81,
       0xa5, 0x38, 0x83, 0x20, 0xa9, 0x27, 0xda, 0x3e] := by
  rw [sha512_update_new_nil]
  decide

set_option maxRecDepth 1000000 in
/-- C3 (amended): finalizing a fresh SHA-512 hasher after absorbing the
empty byte sequence yields the standard's actual published empty-message
digest cf83e1357eefb8bd…a538327af927da3e — the value the repository's own
`test_sha512_empty` expects; the spec's transcription differs from it only
in the three bytes at offsets 58–60 (it reads 83 20 a9 where the standard
has 32 7a f9). -/
theorem C3_sha512_empty_vector :
    sha512_finalize (sha512_update sha512_new []) =
      [0xcf, 0x83, 0xe1, 0x35, 0x7e, 0xef, 0xb8, 0xbd,
       0xf1, 0x54, 0x28, 0x50, 0xd6, 0x6d, 0x80, 0x07,
       0xd6, 0x20, 0xe4, 0x05, 0x0b, 0x57, 0x15, 0xdc,
       0x83, 0xf4, 0xa9, 0x21, 0xd3, 0x6c, 0xe9, 0xce,
       0x47, 0xd0, 0xd1, 0x3c, 0x5d, 0x85, 0xf2, 0xb0,
       0xff, 0x83, 0x18, 0xd2, 0x87, 0x7e, 0xec, 0x2f,
       0x63, 0xb9, 0x31, 0xbd, 0x47, 0x41, 0x7a, 0x81,
       0xa5, 0x38, 0x32, 0x7a, 0xf9, 0x27, 0xda, 0x3e] := by
  rw [sha512_update_new_nil]
  decide

/-- C4: at finalization the hasher appends one `0x80` byte, zero padding,
and the 8- (SHA-256) resp. 16-byte (SHA-512) big-endian encoding of the
total byte length × 8; it compresses exactly two final blocks when the
residue exceeds 55 resp. 111 bytes and exactly one otherwise, and the final
chaining state is serialized big-endian word-by-word into the digest. -/
theorem C4_finalize_padding :
    (∀ c : Sha256Ctx, c.buffer_len < 64 → c.buffer.length = 64 →
      sha256_finalize c =
        sha256_digest_bytes
          ((sha256_pad_blocks (c.buffer.take c.buffer_len) c.total_len).foldl
            sha256_transform_generic c.state)) ∧
    (∀ c : Sha512Ctx, c.buffer_len < 128 → c.buffer.length = 128 →
      sha512_finalize c =
        sha512_digest_bytes
          ((sha512_pad_blocks (c.buffer.take c.buffer_len) c.total_len).foldl
            sha512_transform_generic c.state)) :=
  ⟨sha256_finalize_eq_pad, sha512_finalize_eq_pad⟩

/-- Witness for C4 at the freshly created hashers. -/
theorem C4_finalize_padding_witness :
    sha256_new.buffer_len < 64 ∧ sha256_new.buffer.length = 64 ∧
    sha512_new.buffer_len < 128 ∧ sha512_new.buffer.length = 128 ∧
    sha256_finalize sha256_new =
      sha256_digest_bytes
        ((sha256_pad_blocks (sha256_new.buffer.take sha256_new.buffer_len)
          sha256_new.total_len).foldl sha256_transform_generic sha256_new.state) ∧
    sha512_finalize sha512_new =
      sha512_digest_bytes
        ((sha512_pad_blocks (sha512_new.buffer.take sha512_new.buffer_len)
          sha512_new.total_len).foldl sha512_transform_generic sha512_new.state) :=
  ⟨by decide, by decide, by decide, by decide,
   C4_finalize_padding.1 sha256_new (by decide) (by decide),
   C4_finalize_padding.2 sha512_new (by decide) (by decide)⟩

/-- C9: after every sequence of update calls the residual-buffer byte count
is strictly below the block size (64 for SHA-256, 128 for SHA-512): a
buffer that fills during an update is compressed and emptied before the
call returns. -/
theorem C9_residual_buffer_invariant :
    (∀ chunks : List (List Nat),
      (chunks.foldl sha256_update sha256_new).buffer_len < 64) ∧
    (∀ chunks : List (List Nat),
      (chunks.foldl sha512_update sha512_new).buffer_len < 128) := by
  constructor
  · intro chunks
    have h := (sha256_run_rep chunks).2.2.1
    omega
  · intro chunks
    have h := (sha512_run_rep chunks).2.2.1
    omega

/-- C8 (counterexample): the claim allows inputs up to 2^64 bytes for
SHA-256, but the `u64` computation `total_len * 8` in `Sha256::finalize`
already wraps at 2^61 bytes: at that length it yields 0 instead of the true
bit count. -/
theorem C8_counterexample :
    2 ^ 61 ≤ 2 ^ 64 ∧ sha256_bit_len (2 ^ 61) = 0 ∧ 2 ^ 61 * 8 ≠ 0 := by
  refine ⟨by norm_num, ?_, by norm_num⟩
  rw [sha256_bit_len, M64]
  norm_num

/-- C8 (amended): the total-length counter equals exactly the number of raw
input bytes absorbed (padding is never counted) for totals below 2^64
(SHA-256) resp. 2^128 (SHA-512) bytes, and the total-bit-length computation
`total × 8` of finalize is exact for messages up to 2^64 resp. 2^128 bits —
the ranges of the standard's length fields. -/
theorem C8_length_counter_amended :
    (∀ chunks : List (List Nat), (chunks.map List.length).sum < 2 ^ 64 →
      (chunks.foldl sha256_update sha256_new).total_len = (chunks.map List.length).sum) ∧
    (∀ t : Nat, t * 8 < 2 ^ 64 → sha256_bit_len t = t * 8) ∧
    (∀ chunks : List (List Nat), (chunks.map List.length).sum < 2 ^ 128 →
      (chunks.foldl sha512_update sha512_new).total_len = (chunks.map List.length).sum) ∧
    (∀ t : Nat, t * 8 < 2 ^ 128 → sha512_bit_len t = t * 8) := by
  refine ⟨?_, ?_, ?_, ?_⟩
  · intro chunks hlt
    have h := (sha256_run_rep chunks).2.2.2.1
    rw [List.length_flatten] at h
    rw [h, M64]
    exact Nat.mod_eq_of_lt hlt
  · intro t ht
    rw [sha256_bit_len, M64]
    exact Nat.mod_eq_of_lt ht
  · intro chunks hlt
    have h := (sha512_run_rep chunks).2.2.2.1
    rw [List.length_flatten] at h
    rw [h, M128]
    exact Nat.mod_eq_of_lt hlt
  · intro t ht
    rw [sha512_bit_len, M128]
    exact Nat.mod_eq_of_lt ht

/-- Witness for the amended C8 at small concrete inputs. -/
theorem C8_length_counter_amended_witness :
    ([[1, 2, 3], [4, 5]].map List.length).sum < 2 ^ 64 ∧
    (5 : Nat) * 8 < 2 ^ 64 ∧
    ([[1, 2, 3], [4, 5]].map List.length).sum < 2 ^ 128 ∧
    (7 : Nat) * 8 < 2 ^ 128 ∧
    ([[1, 2, 3], [4, 5]].foldl sha256_update sha256_new).total_len =
      ([[1, 2, 3], [4, 5]].map List.length).sum ∧
    sha256_bit_len 5 = 5 * 8 ∧
    ([[1, 2, 3], [4, 5]].foldl sha512_update sha512_new).total_len =
      ([[1, 2, 3], [4, 5]].map List.length).sum ∧
    sha512_bit_len 7 = 7 * 8 :=
  ⟨by decide, by decide, by decide, by decide,
   C8_length_counter_amended.1 [[1, 2, 3], [4, 5]] (by decide),
   C8_length_counter_amended.2.1 5 (by decide),
   C8_length_counter_amended.2.2.1 [[1, 2, 3], [4, 5]] (by decide),
   C8_length_counter_amended.2.2.2 7 (by decide)⟩

/-- C10: for every hasher reachable by a sequence of update calls, the
total-length counter, the number of compression invocations so far, and the
residual-buffer count satisfy
`total_len = block_size × compressions + buffer_len` (for totals within the
counter's range), and equivalently `buffer_len = total_len mod block_size`
holds after every update. -/
theorem C10_counter_linkage :
    (∀ chunks : List (List Nat), (chunks.map List.length).sum < 2 ^ 64 →
      (sha256_count_run chunks).1.total_len =
        64 * (sha256_count_run chunks).2 + (sha256_count_run chunks).1.buffer_len) ∧
    (∀ chunks : List (List Nat),
      (chunks.foldl sha256_update sha256_new).buffer_len =
        (chunks.foldl sha256_update sha256_new).total_len % 64) ∧
    (∀ chunks : List (List Nat), (chunks.map List.length).sum < 2 ^ 128 →
      (sha512_count_run chunks).1.total_len =
        128 * (sha512_count_run chunks).2 + (sha512_count_run chunks).1.buffer_len) ∧
    (∀ chunks : List (List Nat),
      (chunks.foldl sha512_update sha512_new).buffer_len =
        (chunks.foldl sha512_update sha512_new).total_len % 128) := by
  refine ⟨?_, ?_, ?_, ?_⟩
  · intro chunks hlt
    have h := sha256_count_invariant chunks sha256_new 0 [] sha256_new_rep (by simp [sha256_new])
    rw [List.nil_append] at h
    obtain ⟨hrep, hcnt⟩ := h
    have htot := hrep.2.2.2.1
    rw [List.length_flatten] at htot hcnt
    rw [sha256_count_run]
    rw [htot, M64, Nat.mod_eq_of_lt hlt]
    omega
  · intro chunks
    have h := sha256_run_rep chunks
    have hbl := h.2.2.1
    have htot := h.2.2.2.1
    rw [hbl, htot, M64]
    have hdvd : (64 : Nat) ∣ 2 ^ 64 := by
      have h4 : (2 : Nat) ^ 64 = 64 * 2 ^ 58 := by norm_num
      exact ⟨2 ^ 58, h4⟩
    rw [Nat.mod_mod_of_dvd _ hdvd]
  · intro chunks hlt
    have h := sha512_count_invariant chunks sha512_new 0 [] sha512_new_rep (by simp [sha512_new])
    rw [List.nil_append] at h
    obtain ⟨hrep, hcnt⟩ := h
    have htot := hrep.2.2.2.1
    rw [List.length_flatten] at htot hcnt
    rw [sha512_count_run]
    rw [htot, M128, Nat.mod_eq_of_lt hlt]
    omega
  · intro chunks
    have h := sha512_run_rep chunks
    have hbl := h.2.2.1
    have htot := h.2.2.2.1
    rw [hbl, htot, M128]
    have hdvd : (128 : Nat) ∣ 2 ^ 128 := by
      have h4 : (2 : Nat) ^ 128 = 128 * 2 ^ 121 := by norm_num
      exact ⟨2 ^ 121, h4⟩
    rw [Nat.mod_mod_of_dvd _ hdvd]

/-- Witness for C10: a run with two chunks that crosses a block boundary. -/
theorem C10_counter_linkage_witness :
    (([List.replicate 70 1, List.replicate 10 2].map List.length).sum < 2 ^ 64) ∧
    (([List.replicate 70 1, List.replicate 10 2].map List.length).sum < 2 ^ 128) ∧
    ((sha256_count_run [List.replicate 70 1, List.replicate 10 2]).1.total_len =
      64 * (sha256_count_run [List.replicate 70 1, List.replicate 10 2]).2 +
        (sha256_count_run [List.replicate 70 1, List.replicate 10 2]).1.buffer_len) ∧
    ((sha512_count_run [List.replicate 70 1, List.replicate 10 2]).1.total_len =
      128 * (sha512_count_run [List.replicate 70 1, List.replicate 10 2]).2 +
        (sha512_count_run [List.replicate 70 1, List.replicate 10 2]).1.buffer_len) :=
  ⟨by decide, by decide,
   C10_counter_linkage.1 [List.replicate 70 1, List.replicate 10 2] (by decide),
   C10_counter_linkage.2.2.1 [List.replicate 70 1, List.replicate 10 2] (by decide)⟩

/-! ## Round-constant tables of the benchmark programs, and the standard's
derivation of the constants -/

/-- The 64-entry round-constant table `K32` of sha256_aarch64/src/main.rs. -/
def K32_bench : List Nat := [
  1116352408, 0x71374491, 0xb5c0fbcf, 0xe9b5dba5,
  961987163, 0x59f111f1, 0x923f82a4, 0xab1c5ed5,
  3624381080, 0x12835b01, 0x243185be, 0x550c7dc3,
  1925078388, 0x80deb1fe, 0x9bdc06a7, 0xc19bf174,
  3835390401, 0xefbe4786, 0x0fc19dc6, 0x240ca1cc,
  770255983, 0x4a7484aa, 0x5cb0a9dc, 0x76f988da,
  2554220882, 0xa831c66d, 0xb00327c8, 0xbf597fc7,
  3336571891, 0xd5a79147, 0x06ca6351, 0x14292967,
  666307205, 0x2e1b2138, 0x4d2c6dfc, 0x53380d13,
  1695183700, 0x766a0abb, 0x81c2c92e, 0x92722c85,
  2730485921, 0xa81a664b, 0xc24b8b70, 0xc76c51a3,
  3516065817, 0xd6990624, 0xf40e3585, 0x106aa070,
  430227734, 0x1e376c08, 0x2748774c, 0x34b0bcb5,
  958139571, 0x4ed8aa4a, 0x5b9cca4f, 0x682e6ff3,
  1955562222, 0x78a5636f, 0x84c87814, 0x8cc70208,
  2428436474, 0xa4506ceb, 0xbef9a3f7, 0xc67178f2]

/-- The 80-entry round-constant table `K64` of sha512_aarch64/src/main.rs. -/
def K64_bench : List Nat := [
  4794697086780616226, 0x7137449123ef65cd, 0xb5c0fbcfec4d3b2f, 0xe9b5dba58189dbbc,
  4131703408338449720, 0x59f111f1b605d019, 0x923f82a4af194f9b, 0xab1c5ed5da6d8118,
  15566598209576043074, 0x12835b0145706fbe, 0x243185be4ee4b28c, 0x550c7dc3d5ffb4e2,
  8268148722764581231, 0x80deb1fe3b1696b1, 0x9bdc06a725c71235, 0xc19bf174cf692694,
  16472876342353939154, 0xefbe4786384f25e3, 0x0fc19dc68b8cd5b5, 0x240ca1cc77ac9c65,
  3308224258029322869, 0x4a7484aa6ea6e483, 0x5cb0a9dcbd41fbd4, 0x76f988da831153b5,
  10970295158949994411, 0xa831c66d2db43210, 0xb00327c898fb213f, 0xbf597fc7beef0ee4,
  14330467153632333762, 0xd5a79147930aa725, 0x06ca6351e003826f, 0x142929670a0e6e70,
  2861767655752347644, 0x2e1b21385c26c926, 0x4d2c6dfc5ac42aed, 0x53380d139d95b3df,
  7280758554555802590, 0x766a0abb3c77b2a8, 0x81c2c92e47edaee6, 0x92722c851482353b,
  11727347734174303076, 0xa81a664bbc423001, 0xc24b8b70d0f89791, 0xc76c51a30654be30,
  15101387698204529176, 0xd69906245565a910, 0xf40e35855771202a, 0x106aa07032bbd1b8,
  1847814050463011016, 0x1e376c085141ab53, 0x2748774cdf8eeb99, 0x34b0bcb5e19b48a8,
  4115178125766777443, 0x4ed8aa4ae3418acb, 0x5b9cca4f7763e373, 0x682e6ff3d6b2b8a3,
  8399075790359081724, 0x78a5636f43172f60, 0x84c87814a1f0ab72, 0x8cc702081a6439ec,
  10430055236837252648, 0xa4506cebde82bde9, 0xbef9a3f7b2c67915, 0xc67178f2e372532b,
  14566680578165727644, 0xd186b8c721c0c207, 0xeada7dd6cde0eb1e, 0xf57d4f7fee6ed178,
  500013540394364858, 0x0a637dc5a2c898a6, 0x113f9804bef90dae, 0x1b710b35131c471b,
  2944078676154940804, 0x32caab7b40c72493, 0x3c9ebe0a15c9bebc, 0x431d67c49c100d4c,
  5532061633213252278, 0x597f299cfc657e2a, 0x5fcb6fab3ad6faec, 0x6c44198c4a475817]

/-- Trial-division primality test. -/
def isPrimeB (n : Nat) : Bool :=
  decide (2 ≤ n) && (List.range (n - 2)).all (fun k => decide (n % (k + 2) ≠ 0))

/-- The first `k` prime numbers (the 80th prime is 409 < 410). -/
def firstPrimes (k : Nat) : List Nat :=
  ((List.range 410).filter isPrimeB).take k

/-- Binary search for the integer cube root (fuel-bounded so that it
computes by structural recursion): maintains `lo³ ≤ n < hi³`. -/
def icbrtGo (n : Nat) : Nat → Nat → Nat → Nat
  | 0, lo, _ => lo
  | fuel + 1, lo, hi =>
    if lo + 1 < hi then
      if ((lo + hi) / 2) * ((lo + hi) / 2) * ((lo + hi) / 2) ≤ n then
        icbrtGo n fuel ((lo + hi) / 2) hi
      else
        icbrtGo n fuel lo ((lo + hi) / 2)
    else lo

/-- Integer cube root. -/
def icbrt (n : Nat) : Nat := icbrtGo n (n + 2) 0 (n + 2)

/-- The standard's SHA-256 round constants: the first 32 bits of the
fractional parts of the cube roots of the first 64 primes,
`⌊∛p · 2³²⌋ mod 2³² = ⌊∛(p · 2⁹⁶)⌋ mod 2³²`. -/
def sha256_standard_K : List Nat :=
  (firstPrimes 64).map (fun p => icbrt (p * 2 ^ 96) % 2 ^ 32)

/-- The standard's SHA-512 round constants: the first 64 bits of the
fractional parts of the cube roots of the first 80 primes. -/
def sha512_standard_K : List Nat :=
  (firstPrimes 80).map (fun p => icbrt (p * 2 ^ 192) % 2 ^ 64)

/-- C7 (counterexample): the SHA-256 round-constant table is not a 32-entry
array — it has 64 entries, as the standard requires. -/
theorem C7_counterexample : K256.length ≠ 32 := by decide

set_option maxRecDepth 1000000 in
/-- C7 (amended): the SHA-256 round-constant table is a fixed 64-entry
array and the SHA-512 table a fixed 80-entry array; each equals bit-for-bit
the standard's mathematically derived constants (fractional cube-root bits
of the first 64 resp. 80 primes), and the generic and hardware compression
strategies use identical tables. -/
theorem C7_round_constants_amended :
    K256.length = 64 ∧ K512.length = 80 ∧
    K256 = sha256_standard_K ∧ K512 = sha512_standard_K ∧
    K32_bench = K256 ∧ K64_bench = K512 :=
  ⟨by decide, by decide, by decide, by decide, by decide, by decide⟩

/-! ## AArch64 SHA-256 hardware compression (sha256_aarch64/src/main.rs)

The NEON intrinsics are modelled on `Nat` lanes following the Arm
Architecture Reference Manual pseudocode of the SHA256H/SHA256H2/
SHA256SU0/SHA256SU1 instructions; a `uint32x4_t` is four 32-bit lanes with
lane 0 at the lowest address. -/

/-- A `uint32x4_t` register: four 32-bit lanes. -/
structure U32x4 where
  l0 : Nat
  l1 : Nat
  l2 : Nat
  l3 : Nat
deriving DecidableEq, Repr

/-- `vaddq_u32`: lane-wise wrapping addition. -/
def vaddq_u32 (a b : U32x4) : U32x4 :=
  ⟨add32 a.l0 b.l0, add32 a.l1 b.l1, add32 a.l2 b.l2, add32 a.l3 b.l3⟩

/-- `Elem[w, e, 32]`. -/
def elemU32x4 (w : U32x4) : Nat → Nat
  | 0 => w.l0
  | 1 => w.l1
  | 2 => w.l2
  | _ => w.l3

/-- One iteration of the Arm `SHA256hash` pseudocode loop: a full SHA-256
round on `(X, Y) = (abcd, efgh)` with the combined word `wk = W + K`,
followed by the `ROL(Y:X, 32)` lane rotation. -/
def sha256hashRound (p : U32x4 × U32x4) (wk : Nat) : U32x4 × U32x4 :=
  let x := p.1
  let y := p.2
  let chs := ch32 y.l0 y.l1 y.l2
  let maj := maj32 x.l0 x.l1 x.l2
  let t := add32 (add32 (add32 y.l3 (bigSigma1_256 y.l0)) chs) wk
  (⟨add32 (add32 t (bigSigma0_256 x.l0)) maj, x.l0, x.l1, x.l2⟩,
   ⟨add32 t x.l3, y.l0, y.l1, y.l2⟩)

/-- Arm `SHA256hash(X, Y, W, part1)`: four rounds; returns the new `abcd`
when `part1` and the new `efgh` otherwise. -/
def sha256hash (x y w : U32x4) (part1 : Bool) : U32x4 :=
  let p := (List.range 4).foldl (fun p e => sha256hashRound p (elemU32x4 w e)) (x, y)
  if part1 then p.1 else p.2

/-- `SHA256H  Qd, Qn, Vm.4S`: `V[d] = SHA256hash(V[d], V[n], V[m], TRUE)`. -/
def vsha256hq_u32 (d n m : U32x4) : U32x4 := sha256hash d n m true

/-- `SHA256H2 Qd, Qn, Vm.4S`: `V[d] = SHA256hash(V[n], V[d], V[m], FALSE)`. -/
def vsha256h2q_u32 (d n m : U32x4) : U32x4 := sha256hash n d m false

/-- `SHA256SU0 Vd.4S, Vn.4S`: the σ0 half of the schedule update. -/
def vsha256su0q_u32 (d n : U32x4) : U32x4 :=
  ⟨add32 d.l0 (sigma0_256 d.l1), add32 d.l1 (sigma0_256 d.l2),
   add32 d.l2 (sigma0_256 d.l3), add32 d.l3 (sigma0_256 n.l0)⟩

/-- `SHA256SU1 Vd.4S, Vn.4S, Vm.4S`: the σ1 half of the schedule update
(`T0 = [n1, n2, n3, m0]`, σ1 taken of `[m2, m3]` then of the two words
just produced). -/
def vsha256su1q_u32 (d n m : U32x4) : U32x4 :=
  let r0 := add32 (add32 d.l0 n.l1) (sigma1_256 m.l2)
  let r1 := add32 (add32 d.l1 n.l2) (sigma1_256 m.l3)
  let r2 := add32 (add32 d.l2 n.l3) (sigma1_256 r0)
  let r3 := add32 (add32 d.l3 m.l0) (sigma1_256 r1)
  ⟨r0, r1, r2, r3⟩

/-- `vreinterpretq_u32_u8 (vrev32q_u8 (vld1q_u8 …))`: four big-endian words
loaded from 16 bytes of the block. -/
def vld1q_rev32 (block : List Nat) (off : Nat) : U32x4 :=
  ⟨beWord32 (block.getD off 0) (block.getD (off + 1) 0)
     (block.getD (off + 2) 0) (block.getD (off + 3) 0),
   beWord32 (block.getD (off + 4) 0) (block.getD (off + 5) 0)
     (block.getD (off + 6) 0) (block.getD (off + 7) 0),
   beWord32 (block.getD (off + 8) 0) (block.getD (off + 9) 0)
     (block.getD (off + 10) 0) (block.getD (off + 11) 0),
   beWord32 (block.getD (off + 12) 0) (block.getD (off + 13) 0)
     (block.getD (off + 14) 0) (block.getD (off + 15) 0)⟩

/-- `vld1q_u32(K32[t..])`. -/
def k32vec (t : Nat) : U32x4 :=
  ⟨K32_bench.getD t 0, K32_bench.getD (t + 1) 0,
   K32_bench.getD (t + 2) 0, K32_bench.getD (t + 3) 0⟩

/-- The `round4!` macro of sha256_aarch64/src/main.rs. -/
def round4 (abcd efgh s : U32x4) (t : Nat) : U32x4 × U32x4 :=
  let tmp := vaddq_u32 s (k32vec t)
  (vsha256hq_u32 abcd efgh tmp, vsha256h2q_u32 efgh abcd tmp)

/-- Register file of the hardware loop: the two state vectors and the four
schedule vectors. -/
structure Sha256HwSt where
  abcd : U32x4
  efgh : U32x4
  s0 : U32x4
  s1 : U32x4
  s2 : U32x4
  s3 : U32x4
deriving DecidableEq, Repr

/-- Body of `for t in (16..64).step_by(16)` in `sha256_compress`. -/
def sha256_hw_loop_body (st : Sha256HwSt) (t : Nat) : Sha256HwSt :=
  let s0 := vsha256su1q_u32 (vsha256su0q_u32 st.s0 st.s1) st.s2 st.s3
  let r0 := round4 st.abcd st.efgh s0 t
  let s1 := vsha256su1q_u32 (vsha256su0q_u32 st.s1 st.s2) st.s3 s0
  let r1 := round4 r0.1 r0.2 s1 (t + 4)
  let s2 := vsha256su1q_u32 (vsha256su0q_u32 st.s2 st.s3) s0 s1
  let r2 := round4 r1.1 r1.2 s2 (t + 8)
  let s3 := vsha256su1q_u32 (vsha256su0q_u32 st.s3 s0) s1 s2
  let r3 := round4 r2.1 r2.2 s3 (t + 12)
  ⟨r3.1, r3.2, s0, s1, s2, s3⟩

/-- One block of `sha256_compress`: load and byte-swap the schedule
vectors, 4 initial `round4!` groups, the 3 expansion loop iterations, and
the per-block feed-forward additions. -/
def compress256_block (abcd efgh : U32x4) (block : List Nat) : U32x4 × U32x4 :=
  let s0 := vld1q_rev32 block 0
  let s1 := vld1q_rev32 block 16
  let s2 := vld1q_rev32 block 32
  let s3 := vld1q_rev32 block 48
  let r0 := round4 abcd efgh s0 0
  let r1 := round4 r0.1 r0.2 s1 4
  let r2 := round4 r1.1 r1.2 s2 8
  let r3 := round4 r2.1 r2.2 s3 12
  let fin := (List.range' 16 3 16).foldl sha256_hw_loop_body ⟨r3.1, r3.2, s0, s1, s2, s3⟩
  (vaddq_u32 fin.abcd abcd, vaddq_u32 fin.efgh efgh)

/-- `compress256` / `sha256_compress`: load the state into two vectors,
compress every block, store back. -/
def compress256 (state : List Nat) (blocks : List (List Nat)) : List Nat :=
  let abcd := (⟨state.getD 0 0, state.getD 1 0, state.getD 2 0, state.getD 3 0⟩ : U32x4)
  let efgh := (⟨state.getD 4 0, state.getD 5 0, state.getD 6 0, state.getD 7 0⟩ : U32x4)
  let p := blocks.foldl (fun p block => compress256_block p.1 p.2 block) (abcd, efgh)
  [p.1.l0, p.1.l1, p.1.l2, p.1.l3, p.2.l0, p.2.l1, p.2.l2, p.2.l3]

/-! ## Equivalence of the SHA-256 hardware transform with the algorithm of
record -/

lemma K32_bench_eq : K32_bench = K256 := by decide

/-- Four consecutive schedule words as one vector. -/
def wvec (W : Nat → Nat) (a : Nat) : U32x4 :=
  ⟨W a, W (a + 1), W (a + 2), W (a + 3)⟩

/-- Four spec rounds starting at index `t`. -/
def spec4 (W : Nat → Nat) (v : Hash8) (t : Nat) : Hash8 :=
  sha256_round_spec W
    (sha256_round_spec W
      (sha256_round_spec W (sha256_round_spec W v t) (t + 1)) (t + 2)) (t + 3)

lemma sha256hashRound_spec (W : Nat → Nat) (v : Hash8) (i : Nat) :
    sha256hashRound (⟨v.a, v.b, v.c, v.d⟩, ⟨v.e, v.f, v.g, v.h⟩)
        (add32 (W i) (K256.getD i 0)) =
      (⟨(sha256_round_spec W v i).a, (sha256_round_spec W v i).b,
        (sha256_round_spec W v i).c, (sha256_round_spec W v i).d⟩,
       ⟨(sha256_round_spec W v i).e, (sha256_round_spec W v i).f,
        (sha256_round_spec W v i).g, (sha256_round_spec W v i).h⟩) := by
  simp only [sha256hashRound, sha256_round_spec, Prod.mk.injEq, U32x4.mk.injEq,
    and_true, true_and]
  constructor <;> (simp only [add32, M32, Nat.mod_add_mod, Nat.add_mod_mod]; omega)

lemma round4_spec (W : Nat → Nat) (v : Hash8) (t : Nat) :
    round4 ⟨v.a, v.b, v.c, v.d⟩ ⟨v.e, v.f, v.g, v.h⟩ (wvec W t) t =
      (⟨(spec4 W v t).a, (spec4 W v t).b, (spec4 W v t).c, (spec4 W v t).d⟩,
       ⟨(spec4 W v t).e, (spec4 W v t).f, (spec4 W v t).g, (spec4 W v t).h⟩) := by
  have hrange : List.range 4 = [0, 1, 2, 3] := rfl
  simp only [round4, vsha256hq_u32, vsha256h2q_u32, sha256hash, hrange,
    List.foldl_cons, List.foldl_nil, vaddq_u32, wvec, k32vec, K32_bench_eq,
    elemU32x4, spec4, if_true, Bool.false_eq_true, if_false, ite_true, ite_false]
  rw [sha256hashRound_spec W v t,
    sha256hashRound_spec W (sha256_round_spec W v t) (t + 1),
    sha256hashRound_spec W (sha256_round_spec W (sha256_round_spec W v t) (t + 1)) (t + 2),
    sha256hashRound_spec W
      (sha256_round_spec W (sha256_round_spec W (sha256_round_spec W v t) (t + 1)) (t + 2))
      (t + 3)]

lemma sha256_su_spec (W : Nat → Nat) (j : Nat)
    (hr : ∀ i, W (i + 16) =
      add32 (add32 (add32 (W i) (sigma0_256 (W (i + 1)))) (W (i + 9)))
        (sigma1_256 (W (i + 14)))) :
    vsha256su1q_u32 (vsha256su0q_u32 (wvec W j) (wvec W (j + 4)))
        (wvec W (j + 8)) (wvec W (j + 12)) = wvec W (j + 16) := by
  have h16 := hr j
  have h17 := hr (j + 1)
  have h18 := hr (j + 2)
  have h19 := hr (j + 3)
  simp only [Nat.add_assoc, Nat.reduceAdd] at h17 h18 h19
  simp only [wvec, vsha256su0q_u32, vsha256su1q_u32, Nat.add_assoc, Nat.reduceAdd,
    U32x4.mk.injEq]
  refine ⟨h16.symm, h17.symm, ?_, ?_⟩
  · rw [← h16]
    exact h18.symm
  · rw [← h17]
    exact h19.symm

/-- Sixteen spec rounds starting at index `t`. -/
def spec16 (W : Nat → Nat) (v : Hash8) (t : Nat) : Hash8 :=
  spec4 W (spec4 W (spec4 W (spec4 W v t) (t + 4)) (t + 8)) (t + 12)

set_option maxRecDepth 8000 in
set_option maxHeartbeats 1000000 in
lemma sha256_fold64_spec16 (W : Nat → Nat) (v : Hash8) :
    (List.range 64).foldl (sha256_round_spec W) v =
      spec16 W (spec16 W (spec16 W (spec16 W v 0) 16) 32) 48 := rfl

lemma msgWord256_recurrence (block : List Nat) (i : Nat) :
    msgWord256 block (i + 16) =
      add32 (add32 (add32 (msgWord256 block i) (sigma0_256 (msgWord256 block (i + 1))))
        (msgWord256 block (i + 9))) (sigma1_256 (msgWord256 block (i + 14))) := by
  have h := msgWord256_rec block (i + 16) (by omega)
  have e16 : i + 16 - 16 = i := by omega
  have e15 : i + 16 - 15 = i + 1 := by omega
  have e7 : i + 16 - 7 = i + 9 := by omega
  have e2 : i + 16 - 2 = i + 14 := by omega
  rw [e16, e15, e7, e2] at h
  exact h

lemma sha256_hw_loop_body_spec (W : Nat → Nat) (v : Hash8) (j : Nat)
    (hr : ∀ i, W (i + 16) =
      add32 (add32 (add32 (W i) (sigma0_256 (W (i + 1)))) (W (i + 9)))
        (sigma1_256 (W (i + 14)))) :
    sha256_hw_loop_body
        ⟨⟨v.a, v.b, v.c, v.d⟩, ⟨v.e, v.f, v.g, v.h⟩,
         wvec W j, wvec W (j + 4), wvec W (j + 8), wvec W (j + 12)⟩ (j + 16) =
      ⟨⟨(spec16 W v (j + 16)).a, (spec16 W v (j + 16)).b, (spec16 W v (j + 16)).c,
        (spec16 W v (j + 16)).d⟩,
       ⟨(spec16 W v (j + 16)).e, (spec16 W v (j + 16)).f, (spec16 W v (j + 16)).g,
        (spec16 W v (j + 16)).h⟩,
       wvec W (j + 16), wvec W (j + 20), wvec W (j + 24), wvec W (j + 28)⟩ := by
  have hs0 := sha256_su_spec W j hr
  have hs1 := sha256_su_spec W (j + 4) hr
  have hs2 := sha256_su_spec W (j + 8) hr
  have hs3 := sha256_su_spec W (j + 12) hr
  simp only [Nat.add_assoc, Nat.reduceAdd] at hs1 hs2 hs3
  simp only [sha256_hw_loop_body, spec16, Nat.add_assoc, Nat.reduceAdd]
  rw [hs0, round4_spec W v (j + 16)]
  dsimp only
  rw [hs1, round4_spec W (spec4 W v (j + 16)) (j + 20)]
  dsimp only
  rw [hs2, round4_spec W (spec4 W (spec4 W v (j + 16)) (j + 20)) (j + 24)]
  dsimp only
  rw [hs3, round4_spec W (spec4 W (spec4 W (spec4 W v (j + 16)) (j + 20)) (j + 24)) (j + 28)]

lemma vld1q_rev32_sched0 (b : List Nat) :
    vld1q_rev32 b 0 = wvec (msgWord256 b) 0 := by
  simp only [vld1q_rev32, wvec, msgWord256_base b 0 (by omega),
    msgWord256_base b 1 (by omega), msgWord256_base b 2 (by omega),
    msgWord256_base b 3 (by omega), Nat.reduceMul, Nat.reduceAdd, Nat.zero_add,
    Nat.add_zero]

lemma vld1q_rev32_sched1 (b : List Nat) :
    vld1q_rev32 b 16 = wvec (msgWord256 b) 4 := by
  simp only [vld1q_rev32, wvec, msgWord256_base b 4 (by omega),
    msgWord256_base b 5 (by omega), msgWord256_base b 6 (by omega),
    msgWord256_base b 7 (by omega), Nat.reduceMul, Nat.reduceAdd, Nat.zero_add,
    Nat.add_zero]

lemma vld1q_rev32_sched2 (b : List Nat) :
    vld1q_rev32 b 32 = wvec (msgWord256 b) 8 := by
  simp only [vld1q_rev32, wvec, msgWord256_base b 8 (by omega),
    msgWord256_base b 9 (by omega), msgWord256_base b 10 (by omega),
    msgWord256_base b 11 (by omega), Nat.reduceMul, Nat.reduceAdd, Nat.zero_add,
    Nat.add_zero]

lemma vld1q_rev32_sched3 (b : List Nat) :
    vld1q_rev32 b 48 = wvec (msgWord256 b) 12 := by
  simp only [vld1q_rev32, wvec, msgWord256_base b 12 (by omega),
    msgWord256_base b 13 (by omega), msgWord256_base b 14 (by omega),
    msgWord256_base b 15 (by omega), Nat.reduceMul, Nat.reduceAdd, Nat.zero_add,
    Nat.add_zero]

lemma add32_comm (a b : Nat) : add32 a b = add32 b a := by
  simp [add32, Nat.add_comm]

/-- The 64-round spec fold on a block, as a function of the start state. -/
def sfin (v : Hash8) (block : List Nat) : Hash8 :=
  (List.range 64).foldl (sha256_round_spec (msgWord256 block)) v

lemma compress256_block_spec (a b c d e f g h : Nat) (block : List Nat) :
    compress256_block ⟨a, b, c, d⟩ ⟨e, f, g, h⟩ block =
      (⟨add32 (sfin ⟨a, b, c, d, e, f, g, h⟩ block).a a,
        add32 (sfin ⟨a, b, c, d, e, f, g, h⟩ block).b b,
        add32 (sfin ⟨a, b, c, d, e, f, g, h⟩ block).c c,
        add32 (sfin ⟨a, b, c, d, e, f, g, h⟩ block).d d⟩,
       ⟨add32 (sfin ⟨a, b, c, d, e, f, g, h⟩ block).e e,
        add32 (sfin ⟨a, b, c, d, e, f, g, h⟩ block).f f,
        add32 (sfin ⟨a, b, c, d, e, f, g, h⟩ block).g g,
        add32 (sfin ⟨a, b, c, d, e, f, g, h⟩ block).h h⟩) := by
  have hr := msgWord256_recurrence block
  have h40 : round4 ⟨a, b, c, d⟩ ⟨e, f, g, h⟩ (wvec (msgWord256 block) 0) 0 =
      (⟨(spec4 (msgWord256 block) ⟨a, b, c, d, e, f, g, h⟩ 0).a,
        (spec4 (msgWord256 block) ⟨a, b, c, d, e, f, g, h⟩ 0).b,
        (spec4 (msgWord256 block) ⟨a, b, c, d, e, f, g, h⟩ 0).c,
        (spec4 (msgWord256 block) ⟨a, b, c, d, e, f, g, h⟩ 0).d⟩,
       ⟨(spec4 (msgWord256 block) ⟨a, b, c, d, e, f, g, h⟩ 0).e,
        (spec4 (msgWord256 block) ⟨a, b, c, d, e, f, g, h⟩ 0).f,
        (spec4 (msgWord256 block) ⟨a, b, c, d, e, f, g, h⟩ 0).g,
        (spec4 (msgWord256 block) ⟨a, b, c, d, e, f, g, h⟩ 0).h⟩) :=
    round4_spec (msgWord256 block) ⟨a, b, c, d, e, f, g, h⟩ 0
  have hb0 := sha256_hw_loop_body_spec (msgWord256 block)
    (spec4 (msgWord256 block)
      (spec4 (msgWord256 block)
        (spec4 (msgWord256 block)
          (spec4 (msgWord256 block) ⟨a, b, c, d, e, f, g, h⟩ 0) 4) 8) 12) 0 hr
  simp only [Nat.zero_add] at hb0
  have hb1 := sha256_hw_loop_body_spec (msgWord256 block)
    (spec16 (msgWord256 block)
      (spec4 (msgWord256 block)
        (spec4 (msgWord256 block)
          (spec4 (msgWord256 block)
            (spec4 (msgWord256 block) ⟨a, b, c, d, e, f, g, h⟩ 0) 4) 8) 12) 16) 16 hr
  simp only [Nat.reduceAdd] at hb1
  have hb2 := sha256_hw_loop_body_spec (msgWord256 block)
    (spec16 (msgWord256 block)
      (spec16 (msgWord256 block)
        (spec4 (msgWord256 block)
          (spec4 (msgWord256 block)
            (spec4 (msgWord256 block)
              (spec4 (msgWord256 block) ⟨a, b, c, d, e, f, g, h⟩ 0) 4) 8) 12) 16) 32) 32 hr
  simp only [Nat.reduceAdd] at hb2
  have hrange : List.range' 16 3 16 = [16, 32, 48] := rfl
  simp only [compress256_block, vld1q_rev32_sched0, vld1q_rev32_sched1,
    vld1q_rev32_sched2, vld1q_rev32_sched3, hrange, List.foldl_cons, List.foldl_nil]
  rw [h40]
  dsimp only
  rw [round4_spec (msgWord256 block) (spec4 (msgWord256 block) ⟨a, b, c, d, e, f, g, h⟩ 0) 4]
  dsimp only
  rw [round4_spec (msgWord256 block)
    (spec4 (msgWord256 block) (spec4 (msgWord256 block) ⟨a, b, c, d, e, f, g, h⟩ 0) 4) 8]
  dsimp only
  rw [round4_spec (msgWord256 block)
    (spec4 (msgWord256 block)
      (spec4 (msgWord256 block) (spec4 (msgWord256 block) ⟨a, b, c, d, e, f, g, h⟩ 0) 4) 8) 12]
  dsimp only
  rw [hb0]
  rw [hb1]
  rw [hb2]
  dsimp only
  simp only [vaddq_u32, sfin, sha256_fold64_spec16, spec16, Nat.zero_add, Nat.reduceAdd]

lemma sha256_transform_generic_sfin (a b c d e f g h : Nat) (blk : List Nat) :
    sha256_transform_generic ⟨a, b, c, d, e, f, g, h⟩ blk =
      ⟨add32 (sfin ⟨a, b, c, d, e, f, g, h⟩ blk).a a,
       add32 (sfin ⟨a, b, c, d, e, f, g, h⟩ blk).b b,
       add32 (sfin ⟨a, b, c, d, e, f, g, h⟩ blk).c c,
       add32 (sfin ⟨a, b, c, d, e, f, g, h⟩ blk).d d,
       add32 (sfin ⟨a, b, c, d, e, f, g, h⟩ blk).e e,
       add32 (sfin ⟨a, b, c, d, e, f, g, h⟩ blk).f f,
       add32 (sfin ⟨a, b, c, d, e, f, g, h⟩ blk).g g,
       add32 (sfin ⟨a, b, c, d, e, f, g, h⟩ blk).h h⟩ := by
  rw [sha256_transform_eq_spec]
  simp only [sha256_spec_transform, sfin, Sha256State.mk.injEq]
  exact ⟨add32_comm _ _, add32_comm _ _, add32_comm _ _, add32_comm _ _,
    add32_comm _ _, add32_comm _ _, add32_comm _ _, add32_comm _ _⟩

lemma compress256_fold_eq (blocks : List (List Nat)) :
    ∀ a b c d e f g h : Nat,
      blocks.foldl (fun p block => compress256_block p.1 p.2 block)
          (⟨a, b, c, d⟩, ⟨e, f, g, h⟩) =
        (⟨(blocks.foldl sha256_transform_generic ⟨a, b, c, d, e, f, g, h⟩).h0,
          (blocks.foldl sha256_transform_generic ⟨a, b, c, d, e, f, g, h⟩).h1,
          (blocks.foldl sha256_transform_generic ⟨a, b, c, d, e, f, g, h⟩).h2,
          (blocks.foldl sha256_transform_generic ⟨a, b, c, d, e, f, g, h⟩).h3⟩,
         ⟨(blocks.foldl sha256_transform_generic ⟨a, b, c, d, e, f, g, h⟩).h4,
          (blocks.foldl sha256_transform_generic ⟨a, b, c, d, e, f, g, h⟩).h5,
          (blocks.foldl sha256_transform_generic ⟨a, b, c, d, e, f, g, h⟩).h6,
          (blocks.foldl sha256_transform_generic ⟨a, b, c, d, e, f, g, h⟩).h7⟩) := by
  induction blocks with
  | nil => intro a b c d e f g h; rfl
  | cons blk bs ih =>
    intro a b c d e f g h
    rw [List.foldl_cons, List.foldl_cons, compress256_block_spec,
      sha256_transform_generic_sfin]
    exact ih _ _ _ _ _ _ _ _

/-- The SHA-256 hardware path computes the generic transform fold. -/
lemma compress256_eq_generic (a b c d e f g h : Nat) (blocks : List (List Nat)) :
    compress256 [a, b, c, d, e, f, g, h] blocks =
      [(blocks.foldl sha256_transform_generic ⟨a, b, c, d, e, f, g, h⟩).h0,
       (blocks.foldl sha256_transform_generic ⟨a, b, c, d, e, f, g, h⟩).h1,
       (blocks.foldl sha256_transform_generic ⟨a, b, c, d, e, f, g, h⟩).h2,
       (blocks.foldl sha256_transform_generic ⟨a, b, c, d, e, f, g, h⟩).h3,
       (blocks.foldl sha256_transform_generic ⟨a, b, c, d, e, f, g, h⟩).h4,
       (blocks.foldl sha256_transform_generic ⟨a, b, c, d, e, f, g, h⟩).h5,
       (blocks.foldl sha256_transform_generic ⟨a, b, c, d, e, f, g, h⟩).h6,
       (blocks.foldl sha256_transform_generic ⟨a, b, c, d, e, f, g, h⟩).h7] := by
  simp only [compress256, List.getD, List.get?_cons_zero, List.get?_cons_succ,
    Option.getD_some]
  rw [compress256_fold_eq blocks a b c d e f g h]

/-! ## SHA-512 hardware path (sha512_aarch64/src/main.rs, `sha512_compress_hw`)

Instruction semantics follow the Armv8.2 SHA512H / SHA512H2 / SHA512SU0 /
SHA512SU1 pseudocode; lane 0 is the 64-bit element at the lower address. -/

/-- A 128-bit NEON register viewed as two 64-bit lanes. -/
structure U64x2 where
  lo : Nat
  hi : Nat
deriving DecidableEq, Repr

/-- `vaddq_u64`: lane-wise wrapping addition. -/
def vaddq_u64 (a b : U64x2) : U64x2 := ⟨add64 a.lo b.lo, add64 a.hi b.hi⟩

/-- `vextq_u64(a, b, 1)`: the two middle lanes of `b:a`. -/
def vextq_u64_1 (a b : U64x2) : U64x2 := ⟨a.hi, b.lo⟩

/-- `SHA512H Qd, Qn, Vm.2D` (`vsha512hq_u64(d, n, m)`): two `T1` values.
The high lane is `Σ1(m.hi) + Ch(m.hi, n.lo, n.hi) + d.hi`; the low lane
repeats this one round later with `e = m.lo + hi`. -/
def vsha512hq_u64 (d n m : U64x2) : U64x2 :=
  let t1hi := add64 (add64 (bigSigma1_512 m.hi) (ch64 m.hi n.lo n.hi)) d.hi
  let t1lo := add64 (add64 (bigSigma1_512 (add64 m.lo t1hi))
    (ch64 (add64 m.lo t1hi) m.hi n.lo)) d.lo
  ⟨t1lo, t1hi⟩

/-- `SHA512H2 Qd, Qn, Vm.2D` (`vsha512h2q_u64(d, n, m)`): two `T2`
additions. The high lane is `Σ0(m.lo) + Maj(m.lo, n.lo, m.hi) + d.hi`; the
low lane repeats this one round later with `a = hi`. -/
def vsha512h2q_u64 (d n m : U64x2) : U64x2 :=
  let hi := add64 (add64 (bigSigma0_512 m.lo) (maj64 m.lo n.lo m.hi)) d.hi
  let lo := add64 (add64 (bigSigma0_512 hi) (maj64 hi m.lo m.hi)) d.lo
  ⟨lo, hi⟩

/-- `SHA512SU0 Vd.2D, Vn.2D`: the σ0 half of the schedule update. -/
def vsha512su0q_u64 (d n : U64x2) : U64x2 :=
  ⟨add64 d.lo (sigma0_512 d.hi), add64 d.hi (sigma0_512 n.lo)⟩

/-- `SHA512SU1 Vd.2D, Vn.2D, Vm.2D`: the σ1 half of the schedule update. -/
def vsha512su1q_u64 (d n m : U64x2) : U64x2 :=
  ⟨add64 (add64 d.lo m.lo) (sigma1_512 n.lo),
   add64 (add64 d.hi m.hi) (sigma1_512 n.hi)⟩

/-- `vreinterpretq_u64_u8 (vrev64q_u8 (vld1q_u8 …))`: two big-endian
64-bit words loaded from 16 bytes of the block. -/
def vld1q_rev64 (block : List Nat) (off : Nat) : U64x2 :=
  ⟨beWord64 (block.getD off 0) (block.getD (off + 1) 0) (block.getD (off + 2) 0)
     (block.getD (off + 3) 0) (block.getD (off + 4) 0) (block.getD (off + 5) 0)
     (block.getD (off + 6) 0) (block.getD (off + 7) 0),
   beWord64 (block.getD (off + 8) 0) (block.getD (off + 9) 0)
     (block.getD (off + 10) 0) (block.getD (off + 11) 0)
     (block.getD (off + 12) 0) (block.getD (off + 13) 0)
     (block.getD (off + 14) 0) (block.getD (off + 15) 0)⟩

/-- `vld1q_u64(&K64[t])`. -/
def k64vec (t : Nat) : U64x2 :=
  ⟨K64_bench.getD t 0, K64_bench.getD (t + 1) 0⟩

/-- One two-round group of `sha512_compress_hw`, with registers named by
the working-variable pairs they hold on entry: `initial_sum`/`sum`, the
`SHA512H`/`SHA512H2` pair, and the `cd`-slot addition. Returns the value
written to the `gh` slot (the new `a,b` pair) and the value written to the
`cd` slot (the new `e,f` pair). -/
def sha512_hw_group (ab cd ef gh sv : U64x2) (t : Nat) : U64x2 × U64x2 :=
  let initial_sum := vaddq_u64 sv (k64vec t)
  let sum := vaddq_u64 (vextq_u64_1 initial_sum initial_sum) gh
  let intermed := vsha512hq_u64 sum (vextq_u64_1 ef gh) (vextq_u64_1 cd ef)
  (vsha512h2q_u64 intermed cd ab, vaddq_u64 cd intermed)

/-- Register file of the hardware loop: the four state vectors and the
eight schedule vectors. -/
structure Sha512HwSt where
  ab : U64x2
  cd : U64x2
  ef : U64x2
  gh : U64x2
  s0 : U64x2
  s1 : U64x2
  s2 : U64x2
  s3 : U64x2
  s4 : U64x2
  s5 : U64x2
  s6 : U64x2
  s7 : U64x2
deriving DecidableEq, Repr

/-- Body of `for t in (16..80).step_by(16)` in `sha512_compress_hw`. -/
def sha512_hw_loop_body (st : Sha512HwSt) (t : Nat) : Sha512HwSt :=
  let s0 := vsha512su1q_u64 (vsha512su0q_u64 st.s0 st.s1) st.s7 (vextq_u64_1 st.s4 st.s5)
  let g0 := sha512_hw_group st.ab st.cd st.ef st.gh s0 t
  let gh := g0.1
  let cd := g0.2
  let s1 := vsha512su1q_u64 (vsha512su0q_u64 st.s1 st.s2) s0 (vextq_u64_1 st.s5 st.s6)
  let g1 := sha512_hw_group gh st.ab cd st.ef s1 (t + 2)
  let ef := g1.1
  let ab := g1.2
  let s2 := vsha512su1q_u64 (vsha512su0q_u64 st.s2 st.s3) s1 (vextq_u64_1 st.s6 st.s7)
  let g2 := sha512_hw_group ef gh ab cd s2 (t + 4)
  let cd2 := g2.1
  let gh2 := g2.2
  let s3 := vsha512su1q_u64 (vsha512su0q_u64 st.s3 st.s4) s2 (vextq_u64_1 st.s7 s0)
  let g3 := sha512_hw_group cd2 ef gh2 ab s3 (t + 6)
  let ab2 := g3.1
  let ef2 := g3.2
  let s4 := vsha512su1q_u64 (vsha512su0q_u64 st.s4 st.s5) s3 (vextq_u64_1 s0 s1)
  let g4 := sha512_hw_group ab2 cd2 ef2 gh2 s4 (t + 8)
  let gh3 := g4.1
  let cd3 := g4.2
  let s5 := vsha512su1q_u64 (vsha512su0q_u64 st.s5 st.s6) s4 (vextq_u64_1 s1 s2)
  let g5 := sha512_hw_group gh3 ab2 cd3 ef2 s5 (t + 10)
  let ef3 := g5.1
  let ab3 := g5.2
  let s6 := vsha512su1q_u64 (vsha512su0q_u64 st.s6 st.s7) s5 (vextq_u64_1 s2 s3)
  let g6 := sha512_hw_group ef3 gh3 ab3 cd3 s6 (t + 12)
  let cd4 := g6.1
  let gh4 := g6.2
  let s7 := vsha512su1q_u64 (vsha512su0q_u64 st.s7 s0) s6 (vextq_u64_1 s3 s4)
  let g7 := sha512_hw_group cd4 ef3 gh4 ab3 s7 (t + 14)
  let ab4 := g7.1
  let ef4 := g7.2
  ⟨ab4, cd4, ef4, gh4, s0, s1, s2, s3, s4, s5, s6, s7⟩

/-- One block of `sha512_compress_hw`: load and byte-swap the schedule
vectors, the eight unrolled two-round groups for rounds 0–15, the four
expansion loop iterations, and the per-block Davies–Meyer additions. -/
def sha512_compress_block (ab cd ef gh : U64x2) (block : List Nat) :
    U64x2 × U64x2 × U64x2 × U64x2 :=
  let s0 := vld1q_rev64 block 0
  let s1 := vld1q_rev64 block 16
  let s2 := vld1q_rev64 block 32
  let s3 := vld1q_rev64 block 48
  let s4 := vld1q_rev64 block 64
  let s5 := vld1q_rev64 block 80
  let s6 := vld1q_rev64 block 96
  let s7 := vld1q_rev64 block 112
  let g0 := sha512_hw_group ab cd ef gh s0 0
  let gh1 := g0.1
  let cd1 := g0.2
  let g1 := sha512_hw_group gh1 ab cd1 ef s1 2
  let ef1 := g1.1
  let ab1 := g1.2
  let g2 := sha512_hw_group ef1 gh1 ab1 cd1 s2 4
  let cd2 := g2.1
  let gh2 := g2.2
  let g3 := sha512_hw_group cd2 ef1 gh2 ab1 s3 6
  let ab2 := g3.1
  let ef2 := g3.2
  let g4 := sha512_hw_group ab2 cd2 ef2 gh2 s4 8
  let gh3 := g4.1
  let cd3 := g4.2
  let g5 := sha512_hw_group gh3 ab2 cd3 ef2 s5 10
  let ef3 := g5.1
  let ab3 := g5.2
  let g6 := sha512_hw_group ef3 gh3 ab3 cd3 s6 12
  let cd4 := g6.1
  let gh4 := g6.2
  let g7 := sha512_hw_group cd4 ef3 gh4 ab3 s7 14
  let ab4 := g7.1
  let ef4 := g7.2
  let fin := (List.range' 16 4 16).foldl sha512_hw_loop_body
    ⟨ab4, cd4, ef4, gh4, s0, s1, s2, s3, s4, s5, s6, s7⟩
  (vaddq_u64 fin.ab ab, vaddq_u64 fin.cd cd, vaddq_u64 fin.ef ef, vaddq_u64 fin.gh gh)

/-- `sha512_compress_hw`: load the state into four vectors, compress every
block, store back. -/
def sha512_compress_hw (state : List Nat) (blocks : List (List Nat)) : List Nat :=
  let ab := (⟨state.getD 0 0, state.getD 1 0⟩ : U64x2)
  let cd := (⟨state.getD 2 0, state.getD 3 0⟩ : U64x2)
  let ef := (⟨state.getD 4 0, state.getD 5 0⟩ : U64x2)
  let gh := (⟨state.getD 6 0, state.getD 7 0⟩ : U64x2)
  let p := blocks.foldl
    (fun p block => sha512_compress_block p.1 p.2.1 p.2.2.1 p.2.2.2 block)
    (ab, cd, ef, gh)
  [p.1.lo, p.1.hi, p.2.1.lo, p.2.1.hi, p.2.2.1.lo, p.2.2.1.hi, p.2.2.2.lo, p.2.2.2.hi]

lemma K64_bench_eq512 : K64_bench = K512 := by decide

lemma add64_comm (a b : Nat) : add64 a b = add64 b a := by
  simp [add64, Nat.add_comm]

lemma maj64_swap (x y z : Nat) : maj64 x z y = maj64 x y z := by
  simp only [maj64]
  rw [Nat.xor_comm (x &&& z) (x &&& y), Nat.and_comm z y]

/-- Two consecutive schedule words as one vector. -/
def wvec2 (W : Nat → Nat) (t : Nat) : U64x2 := ⟨W t, W (t + 1)⟩

/-- Two spec rounds starting at index `t`. -/
def spec2 (W : Nat → Nat) (v : Hash8) (t : Nat) : Hash8 :=
  sha512_round_spec W (sha512_round_spec W v t) (t + 1)

lemma sha512_hw_group_spec (W : Nat → Nat) (v : Hash8) (t : Nat) :
    sha512_hw_group ⟨v.a, v.b⟩ ⟨v.c, v.d⟩ ⟨v.e, v.f⟩ ⟨v.g, v.h⟩ (wvec2 W t) t =
      (⟨(spec2 W v t).a, (spec2 W v t).b⟩, ⟨(spec2 W v t).e, (spec2 W v t).f⟩) := by
  simp only [sha512_hw_group, vaddq_u64, vextq_u64_1, vsha512hq_u64, vsha512h2q_u64,
    k64vec, K64_bench_eq512, wvec2, spec2, sha512_round_spec]
  rw [maj64_swap v.a v.b v.c]
  have hT1 : add64 (add64 (bigSigma1_512 v.e) (ch64 v.e v.f v.g))
      (add64 (add64 (W t) (K512.getD t 0)) v.h) =
      add64 (add64 (add64 (add64 v.h (bigSigma1_512 v.e)) (ch64 v.e v.f v.g))
        (K512.getD t 0)) (W t) := by
    simp only [add64, M64, Nat.mod_add_mod, Nat.add_mod_mod]
    omega
  rw [hT1]
  generalize add64 (add64 (add64 (add64 v.h (bigSigma1_512 v.e)) (ch64 v.e v.f v.g))
    (K512.getD t 0)) (W t) = T1
  generalize add64 (bigSigma0_512 v.a) (maj64 v.a v.b v.c) = T2
  rw [add64_comm T2 T1]
  generalize bigSigma1_512 (add64 v.d T1) = S1X
  generalize ch64 (add64 v.d T1) v.e v.f = CHX
  have hT2 : add64 (add64 S1X CHX) (add64 (add64 (W (t + 1)) (K512.getD (t + 1) 0)) v.g) =
      add64 (add64 (add64 (add64 v.g S1X) CHX) (K512.getD (t + 1) 0)) (W (t + 1)) := by
    simp only [add64, M64, Nat.mod_add_mod, Nat.add_mod_mod]
    omega
  rw [hT2]
  generalize add64 (add64 (add64 (add64 v.g S1X) CHX) (K512.getD (t + 1) 0)) (W (t + 1)) = T3
  rw [add64_comm (add64 (bigSigma0_512 (add64 T1 T2)) (maj64 (add64 T1 T2) v.a v.b)) T3]

lemma spec2_c (W : Nat → Nat) (v : Hash8) (t : Nat) : (spec2 W v t).c = v.a := rfl

lemma spec2_d (W : Nat → Nat) (v : Hash8) (t : Nat) : (spec2 W v t).d = v.b := rfl

lemma spec2_g (W : Nat → Nat) (v : Hash8) (t : Nat) : (spec2 W v t).g = v.e := rfl

lemma spec2_h (W : Nat → Nat) (v : Hash8) (t : Nat) : (spec2 W v t).h = v.f := rfl

lemma sha512_su_spec (W : Nat → Nat) (j : Nat)
    (hr : ∀ i, W (i + 16) =
      add64 (add64 (add64 (W i) (sigma0_512 (W (i + 1)))) (W (i + 9)))
        (sigma1_512 (W (i + 14)))) :
    vsha512su1q_u64 (vsha512su0q_u64 (wvec2 W j) (wvec2 W (j + 2)))
        (wvec2 W (j + 14)) (vextq_u64_1 (wvec2 W (j + 8)) (wvec2 W (j + 10))) =
      wvec2 W (j + 16) := by
  have h16 := hr j
  have h17 := hr (j + 1)
  simp only [Nat.add_assoc, Nat.reduceAdd] at h17
  simp only [wvec2, vsha512su0q_u64, vsha512su1q_u64, vextq_u64_1, Nat.add_assoc,
    Nat.reduceAdd, U64x2.mk.injEq]
  exact ⟨h16.symm, h17.symm⟩

/-- Sixteen spec rounds starting at index `t`. -/
def spec16x (W : Nat → Nat) (v : Hash8) (t : Nat) : Hash8 :=
  spec2 W (spec2 W (spec2 W (spec2 W (spec2 W (spec2 W (spec2 W (spec2 W v t)
    (t + 2)) (t + 4)) (t + 6)) (t + 8)) (t + 10)) (t + 12)) (t + 14)

set_option maxRecDepth 8000 in
set_option maxHeartbeats 1000000 in
lemma sha512_fold80_spec16 (W : Nat → Nat) (v : Hash8) :
    (List.range 80).foldl (sha512_round_spec W) v =
      spec16x W (spec16x W (spec16x W (spec16x W (spec16x W v 0) 16) 32) 48) 64 := rfl

lemma sha512_hw_loop_body_spec (W : Nat → Nat) (v : Hash8) (j : Nat)
    (hr : ∀ i, W (i + 16) =
      add64 (add64 (add64 (W i) (sigma0_512 (W (i + 1)))) (W (i + 9)))
        (sigma1_512 (W (i + 14)))) :
    sha512_hw_loop_body
        ⟨⟨v.a, v.b⟩, ⟨v.c, v.d⟩, ⟨v.e, v.f⟩, ⟨v.g, v.h⟩,
         wvec2 W j, wvec2 W (j + 2), wvec2 W (j + 4), wvec2 W (j + 6),
         wvec2 W (j + 8), wvec2 W (j + 10), wvec2 W (j + 12), wvec2 W (j + 14)⟩
        (j + 16) =
      ⟨⟨(spec16x W v (j + 16)).a, (spec16x W v (j + 16)).b⟩,
       ⟨(spec16x W v (j + 16)).c, (spec16x W v (j + 16)).d⟩,
       ⟨(spec16x W v (j + 16)).e, (spec16x W v (j + 16)).f⟩,
       ⟨(spec16x W v (j + 16)).g, (spec16x W v (j + 16)).h⟩,
       wvec2 W (j + 16), wvec2 W (j + 18), wvec2 W (j + 20), wvec2 W (j + 22),
       wvec2 W (j + 24), wvec2 W (j + 26), wvec2 W (j + 28), wvec2 W (j + 30)⟩ := by
  have hs0 := sha512_su_spec W j hr
  have hs1 := sha512_su_spec W (j + 2) hr
  have hs2 := sha512_su_spec W (j + 4) hr
  have hs3 := sha512_su_spec W (j + 6) hr
  have hs4 := sha512_su_spec W (j + 8) hr
  have hs5 := sha512_su_spec W (j + 10) hr
  have hs6 := sha512_su_spec W (j + 12) hr
  have hs7 := sha512_su_spec W (j + 14) hr
  simp only [Nat.add_assoc, Nat.reduceAdd] at hs1 hs2 hs3 hs4 hs5 hs6 hs7
  simp only [sha512_hw_loop_body, Nat.add_assoc, Nat.reduceAdd]
  rw [hs0, hs1, hs2, hs3, hs4, hs5, hs6, hs7]
  have hg0 := sha512_hw_group_spec W (v) (j + 16)
  have hg1 := sha512_hw_group_spec W (spec2 W (v) (j + 16)) (j + 18)
  simp only [spec2_c, spec2_d, spec2_g, spec2_h] at hg1
  have hg2 := sha512_hw_group_spec W (spec2 W (spec2 W (v) (j + 16)) (j + 18)) (j + 20)
  simp only [spec2_c, spec2_d, spec2_g, spec2_h] at hg2
  have hg3 := sha512_hw_group_spec W (spec2 W (spec2 W (spec2 W (v) (j + 16)) (j + 18)) (j + 20)) (j + 22)
  simp only [spec2_c, spec2_d, spec2_g, spec2_h] at hg3
  have hg4 := sha512_hw_group_spec W (spec2 W (spec2 W (spec2 W (spec2 W (v) (j + 16)) (j + 18)) (j + 20)) (j + 22)) (j + 24)
  simp only [spec2_c, spec2_d, spec2_g, spec2_h] at hg4
  have hg5 := sha512_hw_group_spec W (spec2 W (spec2 W (spec2 W (spec2 W (spec2 W (v) (j + 16)) (j + 18)) (j + 20)) (j + 22)) (j + 24)) (j + 26)
  simp only [spec2_c, spec2_d, spec2_g, spec2_h] at hg5
  have hg6 := sha512_hw_group_spec W (spec2 W (spec2 W (spec2 W (spec2 W (spec2 W (spec2 W (v) (j + 16)) (j + 18)) (j + 20)) (j + 22)) (j + 24)) (j + 26)) (j + 28)
  simp only [spec2_c, spec2_d, spec2_g, spec2_h] at hg6
  have hg7 := sha512_hw_group_spec W (spec2 W (spec2 W (spec2 W (spec2 W (spec2 W (spec2 W (spec2 W (v) (j + 16)) (j + 18)) (j + 20)) (j + 22)) (j + 24)) (j + 26)) (j + 28)) (j + 30)
  simp only [spec2_c, spec2_d, spec2_g, spec2_h] at hg7
  rw [hg0]
  dsimp only
  rw [hg1]
  dsimp only
  rw [hg2]
  dsimp only
  rw [hg3]
  dsimp only
  rw [hg4]
  dsimp only
  rw [hg5]
  dsimp only
  rw [hg6]
  dsimp only
  rw [hg7]
  dsimp only
  simp only [spec16x, Nat.add_assoc, Nat.reduceAdd, spec2_c, spec2_d, spec2_g, spec2_h]

lemma msgWord512_recurrence (block : List Nat) (i : Nat) :
    msgWord512 block (i + 16) =
      add64 (add64 (add64 (msgWord512 block i) (sigma0_512 (msgWord512 block (i + 1))))
        (msgWord512 block (i + 9))) (sigma1_512 (msgWord512 block (i + 14))) := by
  have h := msgWord512_rec block (i + 16) (by omega)
  have e16 : i + 16 - 16 = i := by omega
  have e15 : i + 16 - 15 = i + 1 := by omega
  have e7 : i + 16 - 7 = i + 9 := by omega
  have e2 : i + 16 - 2 = i + 14 := by omega
  rw [e16, e15, e7, e2] at h
  exact h

lemma vld1q_rev64_sched0 (b : List Nat) :
    vld1q_rev64 b 0 = wvec2 (msgWord512 b) 0 := by
  simp only [vld1q_rev64, wvec2, msgWord512_base b 0 (by omega),
    msgWord512_base b 1 (by omega), Nat.reduceMul, Nat.reduceAdd, Nat.zero_add,
    Nat.add_zero]

lemma vld1q_rev64_sched1 (b : List Nat) :
    vld1q_rev64 b 16 = wvec2 (msgWord512 b) 2 := by
  simp only [vld1q_rev64, wvec2, msgWord512_base b 2 (by omega),
    msgWord512_base b 3 (by omega), Nat.reduceMul, Nat.reduceAdd, Nat.zero_add,
    Nat.add_zero]

lemma vld1q_rev64_sched2 (b : List Nat) :
    vld1q_rev64 b 32 = wvec2 (msgWord512 b) 4 := by
  simp only [vld1q_rev64, wvec2, msgWord512_base b 4 (by omega),
    msgWord512_base b 5 (by omega), Nat.reduceMul, Nat.reduceAdd, Nat.zero_add,
    Nat.add_zero]

lemma vld1q_rev64_sched3 (b : List Nat) :
    vld1q_rev64 b 48 = wvec2 (msgWord512 b) 6 := by
  simp only [vld1q_rev64, wvec2, msgWord512_base b 6 (by omega),
    msgWord512_base b 7 (by omega), Nat.reduceMul, Nat.reduceAdd, Nat.zero_add,
    Nat.add_zero]

lemma vld1q_rev64_sched4 (b : List Nat) :
    vld1q_rev64 b 64 = wvec2 (msgWord512 b) 8 := by
  simp only [vld1q_rev64, wvec2, msgWord512_base b 8 (by omega),
    msgWord512_base b 9 (by omega), Nat.reduceMul, Nat.reduceAdd, Nat.zero_add,
    Nat.add_zero]

lemma vld1q_rev64_sched5 (b : List Nat) :
    vld1q_rev64 b 80 = wvec2 (msgWord512 b) 10 := by
  simp only [vld1q_rev64, wvec2, msgWord512_base b 10 (by omega),
    msgWord512_base b 11 (by omega), Nat.reduceMul, Nat.reduceAdd, Nat.zero_add,
    Nat.add_zero]

lemma vld1q_rev64_sched6 (b : List Nat) :
    vld1q_rev64 b 96 = wvec2 (msgWord512 b) 12 := by
  simp only [vld1q_rev64, wvec2, msgWord512_base b 12 (by omega),
    msgWord512_base b 13 (by omega), Nat.reduceMul, Nat.reduceAdd, Nat.zero_add,
    Nat.add_zero]

lemma vld1q_rev64_sched7 (b : List Nat) :
    vld1q_rev64 b 112 = wvec2 (msgWord512 b) 14 := by
  simp only [vld1q_rev64, wvec2, msgWord512_base b 14 (by omega),
    msgWord512_base b 15 (by omega), Nat.reduceMul, Nat.reduceAdd, Nat.zero_add,
    Nat.add_zero]

/-- The 80-round spec fold on a block, as a function of the start state. -/
def sfin512 (v : Hash8) (block : List Nat) : Hash8 :=
  (List.range 80).foldl (sha512_round_spec (msgWord512 block)) v

lemma sha512_compress_block_spec (a b c d e f g h : Nat) (block : List Nat) :
    sha512_compress_block ⟨a, b⟩ ⟨c, d⟩ ⟨e, f⟩ ⟨g, h⟩ block =
      (⟨add64 (sfin512 ⟨a, b, c, d, e, f, g, h⟩ block).a a, add64 (sfin512 ⟨a, b, c, d, e, f, g, h⟩ block).b b⟩,
       ⟨add64 (sfin512 ⟨a, b, c, d, e, f, g, h⟩ block).c c, add64 (sfin512 ⟨a, b, c, d, e, f, g, h⟩ block).d d⟩,
       ⟨add64 (sfin512 ⟨a, b, c, d, e, f, g, h⟩ block).e e, add64 (sfin512 ⟨a, b, c, d, e, f, g, h⟩ block).f f⟩,
       ⟨add64 (sfin512 ⟨a, b, c, d, e, f, g, h⟩ block).g g, add64 (sfin512 ⟨a, b, c, d, e, f, g, h⟩ block).h h⟩) := by
  have hr := msgWord512_recurrence block
  have hrange : List.range' 16 4 16 = [16, 32, 48, 64] := rfl
  have hg0 : sha512_hw_group ⟨a, b⟩ ⟨c, d⟩ ⟨e, f⟩ ⟨g, h⟩
      (wvec2 (msgWord512 block) 0) 0 =
      (⟨(spec2 (msgWord512 block) ⟨a, b, c, d, e, f, g, h⟩ 0).a,
        (spec2 (msgWord512 block) ⟨a, b, c, d, e, f, g, h⟩ 0).b⟩,
       ⟨(spec2 (msgWord512 block) ⟨a, b, c, d, e, f, g, h⟩ 0).e,
        (spec2 (msgWord512 block) ⟨a, b, c, d, e, f, g, h⟩ 0).f⟩) :=
    sha512_hw_group_spec (msgWord512 block) ⟨a, b, c, d, e, f, g, h⟩ 0
  have hg1 := sha512_hw_group_spec (msgWord512 block)
    (spec2 (msgWord512 block) ((⟨a, b, c, d, e, f, g, h⟩ : Hash8)) 0) 2
  simp only [spec2_c, spec2_d, spec2_g, spec2_h] at hg1
  have hg2 := sha512_hw_group_spec (msgWord512 block)
    (spec2 (msgWord512 block) (spec2 (msgWord512 block) ((⟨a, b, c, d, e, f, g, h⟩ : Hash8)) 0) 2) 4
  simp only [spec2_c, spec2_d, spec2_g, spec2_h] at hg2
  have hg3 := sha512_hw_group_spec (msgWord512 block)
    (spec2 (msgWord512 block) (spec2 (msgWord512 block) (spec2 (msgWord512 block) ((⟨a, b, c, d, e, f, g, h⟩ : Hash8)) 0) 2) 4) 6
  simp only [spec2_c, spec2_d, spec2_g, spec2_h] at hg3
  have hg4 := sha512_hw_group_spec (msgWord512 block)
    (spec2 (msgWord512 block) (spec2 (msgWord512 block) (spec2 (msgWord512 block) (spec2 (msgWord512 block) ((⟨a, b, c, d, e, f, g, h⟩ : Hash8)) 0) 2) 4) 6) 8
  simp only [spec2_c, spec2_d, spec2_g, spec2_h] at hg4
  have hg5 := sha512_hw_group_spec (msgWord512 block)
    (spec2 (msgWord512 block) (spec2 (msgWord512 block) (spec2 (msgWord512 block) (spec2 (msgWord512 block) (spec2 (msgWord512 block) ((⟨a, b, c, d, e, f, g, h⟩ : Hash8)) 0) 2) 4) 6) 8) 10
  simp only [spec2_c, spec2_d, spec2_g, spec2_h] at hg5
  have hg6 := sha512_hw_group_spec (msgWord512 block)
    (spec2 (msgWord512 block) (spec2 (msgWord512 block) (spec2 (msgWord512 block) (spec2 (msgWord512 block) (spec2 (msgWord512 block) (spec2 (msgWord512 block) ((⟨a, b, c, d, e, f, g, h⟩ : Hash8)) 0) 2) 4) 6) 8) 10) 12
  simp only [spec2_c, spec2_d, spec2_g, spec2_h] at hg6
  have hg7 := sha512_hw_group_spec (msgWord512 block)
    (spec2 (msgWord512 block) (spec2 (msgWord512 block) (spec2 (msgWord512 block) (spec2 (msgWord512 block) (spec2 (msgWord512 block) (spec2 (msgWord512 block) (spec2 (msgWord512 block) ((⟨a, b, c, d, e, f, g, h⟩ : Hash8)) 0) 2) 4) 6) 8) 10) 12) 14
  simp only [spec2_c, spec2_d, spec2_g, spec2_h] at hg7
  have hb0 := sha512_hw_loop_body_spec (msgWord512 block)
    (spec2 (msgWord512 block) (spec2 (msgWord512 block) (spec2 (msgWord512 block) (spec2 (msgWord512 block) (spec2 (msgWord512 block) (spec2 (msgWord512 block) (spec2 (msgWord512 block) (spec2 (msgWord512 block) ((⟨a, b, c, d, e, f, g, h⟩ : Hash8)) 0) 2) 4) 6) 8) 10) 12) 14) 0 hr
  simp only [Nat.zero_add, spec2_c, spec2_d, spec2_g, spec2_h] at hb0
  have hb1 := sha512_hw_loop_body_spec (msgWord512 block)
    (spec16x (msgWord512 block) (spec2 (msgWord512 block) (spec2 (msgWord512 block) (spec2 (msgWord512 block) (spec2 (msgWord512 block) (spec2 (msgWord512 block) (spec2 (msgWord512 block) (spec2 (msgWord512 block) (spec2 (msgWord512 block) ((⟨a, b, c, d, e, f, g, h⟩ : Hash8)) 0) 2) 4) 6) 8) 10) 12) 14) 16) 16 hr
  simp only [Nat.reduceAdd] at hb1
  have hb2 := sha512_hw_loop_body_spec (msgWord512 block)
    (spec16x (msgWord512 block) (spec16x (msgWord512 block) (spec2 (msgWord512 block) (spec2 (msgWord512 block) (spec2 (msgWord512 block) (spec2 (msgWord512 block) (spec2 (msgWord512 block) (spec2 (msgWord512 block) (spec2 (msgWord512 block) (spec2 (msgWord512 block) ((⟨a, b, c, d, e, f, g, h⟩ : Hash8)) 0) 2) 4) 6) 8) 10) 12) 14) 16) 32) 32 hr
  simp only [Nat.reduceAdd] at hb2
  have hb3 := sha512_hw_loop_body_spec (msgWord512 block)
    (spec16x (msgWord512 block) (spec16x (msgWord512 block) (spec16x (msgWord512 block) (spec2 (msgWord512 block) (spec2 (msgWord512 block) (spec2 (msgWord512 block) (spec2 (msgWord512 block) (spec2 (msgWord512 block) (spec2 (msgWord512 block) (spec2 (msgWord512 block) (spec2 (msgWord512 block) ((⟨a, b, c, d, e, f, g, h⟩ : Hash8)) 0) 2) 4) 6) 8) 10) 12) 14) 16) 32) 48) 48 hr
  simp only [Nat.reduceAdd] at hb3
  simp only [sha512_compress_block, vld1q_rev64_sched0, vld1q_rev64_sched1,
    vld1q_rev64_sched2, vld1q_rev64_sched3, vld1q_rev64_sched4, vld1q_rev64_sched5,
    vld1q_rev64_sched6, vld1q_rev64_sched7, hrange, List.foldl_cons, List.foldl_nil]
  rw [hg0]
  dsimp only
  rw [hg1]
  dsimp only
  rw [hg2]
  dsimp only
  rw [hg3]
  dsimp only
  rw [hg4]
  dsimp only
  rw [hg5]
  dsimp only
  rw [hg6]
  dsimp only
  rw [hg7]
  dsimp only
  rw [hb0]
  rw [hb1]
  rw [hb2]
  rw [hb3]
  dsimp only
  simp only [vaddq_u64, sfin512, sha512_fold80_spec16, spec16x, Nat.zero_add,
    Nat.reduceAdd]

lemma sha512_transform_generic_sfin (a b c d e f g h : Nat) (blk : List Nat) :
    sha512_transform_generic ⟨a, b, c, d, e, f, g, h⟩ blk =
      ⟨add64 (sfin512 ⟨a, b, c, d, e, f, g, h⟩ blk).a a,
       add64 (sfin512 ⟨a, b, c, d, e, f, g, h⟩ blk).b b,
       add64 (sfin512 ⟨a, b, c, d, e, f, g, h⟩ blk).c c,
       add64 (sfin512 ⟨a, b, c, d, e, f, g, h⟩ blk).d d,
       add64 (sfin512 ⟨a, b, c, d, e, f, g, h⟩ blk).e e,
       add64 (sfin512 ⟨a, b, c, d, e, f, g, h⟩ blk).f f,
       add64 (sfin512 ⟨a, b, c, d, e, f, g, h⟩ blk).g g,
       add64 (sfin512 ⟨a, b, c, d, e, f, g, h⟩ blk).h h⟩ := by
  rw [sha512_transform_eq_spec]
  simp only [sha512_spec_transform, sfin512, Sha512State.mk.injEq]
  exact ⟨add64_comm _ _, add64_comm _ _, add64_comm _ _, add64_comm _ _,
    add64_comm _ _, add64_comm _ _, add64_comm _ _, add64_comm _ _⟩

lemma sha512_compress_fold_eq (blocks : List (List Nat)) :
    ∀ a b c d e f g h : Nat,
      blocks.foldl (fun p block => sha512_compress_block p.1 p.2.1 p.2.2.1 p.2.2.2 block)
          (⟨a, b⟩, ⟨c, d⟩, ⟨e, f⟩, ⟨g, h⟩) =
        (⟨(blocks.foldl sha512_transform_generic ⟨a, b, c, d, e, f, g, h⟩).h0,
          (blocks.foldl sha512_transform_generic ⟨a, b, c, d, e, f, g, h⟩).h1⟩,
         ⟨(blocks.foldl sha512_transform_generic ⟨a, b, c, d, e, f, g, h⟩).h2,
          (blocks.foldl sha512_transform_generic ⟨a, b, c, d, e, f, g, h⟩).h3⟩,
         ⟨(blocks.foldl sha512_transform_generic ⟨a, b, c, d, e, f, g, h⟩).h4,
          (blocks.foldl sha512_transform_generic ⟨a, b, c, d, e, f, g, h⟩).h5⟩,
         ⟨(blocks.foldl sha512_transform_generic ⟨a, b, c, d, e, f, g, h⟩).h6,
          (blocks.foldl sha512_transform_generic ⟨a, b, c, d, e, f, g, h⟩).h7⟩) := by
  induction blocks with
  | nil => intro a b c d e f g h; rfl
  | cons blk bs ih =>
    intro a b c d e f g h
    rw [List.foldl_cons, List.foldl_cons]
    dsimp only
    rw [sha512_compress_block_spec, sha512_transform_generic_sfin]
    exact ih _ _ _ _ _ _ _ _

/-- The SHA-512 hardware path computes the generic transform fold. -/
lemma sha512_compress_hw_eq_generic (a b c d e f g h : Nat) (blocks : List (List Nat)) :
    sha512_compress_hw [a, b, c, d, e, f, g, h] blocks =
      [(blocks.foldl sha512_transform_generic ⟨a, b, c, d, e, f, g, h⟩).h0,
       (blocks.foldl sha512_transform_generic ⟨a, b, c, d, e, f, g, h⟩).h1,
       (blocks.foldl sha512_transform_generic ⟨a, b, c, d, e, f, g, h⟩).h2,
       (blocks.foldl sha512_transform_generic ⟨a, b, c, d, e, f, g, h⟩).h3,
       (blocks.foldl sha512_transform_generic ⟨a, b, c, d, e, f, g, h⟩).h4,
       (blocks.foldl sha512_transform_generic ⟨a, b, c, d, e, f, g, h⟩).h5,
       (blocks.foldl sha512_transform_generic ⟨a, b, c, d, e, f, g, h⟩).h6,
       (blocks.foldl sha512_transform_generic ⟨a, b, c, d, e, f, g, h⟩).h7] := by
  simp only [sha512_compress_hw, List.getD, List.get?_cons_zero, List.get?_cons_succ,
    Option.getD_some]
  rw [sha512_compress_fold_eq blocks a b c d e f g h]

/-- C5: For every ChainingState and every sequence of message blocks, the
hardware-accelerated compression paths (`compress256` of sha256_aarch64
and `sha512_compress_hw` of sha512_aarch64) produce exactly the state the
generic scalar transforms produce, and `sha256_transform_arm` /
`sha512_transform_arm` coincide with the generic transforms on every
input. -/
theorem C5_hw_generic_equivalence :
    (∀ (a b c d e f g h : Nat) (blocks : List (List Nat)),
      compress256 [a, b, c, d, e, f, g, h] blocks =
        [(blocks.foldl sha256_transform_generic ⟨a, b, c, d, e, f, g, h⟩).h0,
         (blocks.foldl sha256_transform_generic ⟨a, b, c, d, e, f, g, h⟩).h1,
         (blocks.foldl sha256_transform_generic ⟨a, b, c, d, e, f, g, h⟩).h2,
         (blocks.foldl sha256_transform_generic ⟨a, b, c, d, e, f, g, h⟩).h3,
         (blocks.foldl sha256_transform_generic ⟨a, b, c, d, e, f, g, h⟩).h4,
         (blocks.foldl sha256_transform_generic ⟨a, b, c, d, e, f, g, h⟩).h5,
         (blocks.foldl sha256_transform_generic ⟨a, b, c, d, e, f, g, h⟩).h6,
         (blocks.foldl sha256_transform_generic ⟨a, b, c, d, e, f, g, h⟩).h7]) ∧
    (∀ (a b c d e f g h : Nat) (blocks : List (List Nat)),
      sha512_compress_hw [a, b, c, d, e, f, g, h] blocks =
        [(blocks.foldl sha512_transform_generic ⟨a, b, c, d, e, f, g, h⟩).h0,
         (blocks.foldl sha512_transform_generic ⟨a, b, c, d, e, f, g, h⟩).h1,
         (blocks.foldl sha512_transform_generic ⟨a, b, c, d, e, f, g, h⟩).h2,
         (blocks.foldl sha512_transform_generic ⟨a, b, c, d, e, f, g, h⟩).h3,
         (blocks.foldl sha512_transform_generic ⟨a, b, c, d, e, f, g, h⟩).h4,
         (blocks.foldl sha512_transform_generic ⟨a, b, c, d, e, f, g, h⟩).h5,
         (blocks.foldl sha512_transform_generic ⟨a, b, c, d, e, f, g, h⟩).h6,
         (blocks.foldl sha512_transform_generic ⟨a, b, c, d, e, f, g, h⟩).h7]) ∧
    (∀ (s : Sha256State) (data : List Nat),
      sha256_transform_arm s data = sha256_transform_generic s data) ∧
    (∀ (s : Sha512State) (data : List Nat),
      sha512_transform_arm s data = sha512_transform_generic s data) :=
  ⟨compress256_eq_generic, sha512_compress_hw_eq_generic,
   fun _ _ => rfl, fun _ _ => rfl⟩

/-! ## Hardware-path gating (the two benchmark `main` functions) -/

/-- SHA-256 initial state of the sha256_aarch64 benchmark `main`. -/
def sha256_main_init : List Nat :=
  [0x6a09e667, 0xbb67ae85, 0x3c6ef372, 0xa54ff53a,
   0x510e527f, 0x9b05688c, 0x1f83d9ab, 0x5be0cd19]

/-- The "abc" test block of the sha256_aarch64 benchmark `main`. -/
def sha256_abc_block : List Nat :=
  [0x61, 0x62, 0x63, 0x80] ++ List.replicate 59 0 ++ [0x18]

/-- SHA-512 initial state of the sha512_aarch64 benchmark `main`. -/
def sha512_main_init : List Nat :=
  [0x6a09e667f3bcc908, 0xbb67ae8584caa73b, 0x3c6ef372fe94f82b, 0xa54ff53a5f1d36f1,
   0x510e527fade682d1, 0x9b05688c2b3e6c1f, 0x1f83d9abfb41bd6b, 0x5be0cd19137e2179]

/-- The "abc" test block of the sha512_aarch64 benchmark `main`. -/
def sha512_abc_block : List Nat :=
  [0x61, 0x62, 0x63, 0x80] ++ List.replicate 123 0 ++ [0x18]

/-- `main` of sha256_aarch64/src/main.rs as a function of the runtime
feature-detection result: it consults no detection at all and always runs
`compress256`. -/
def sha256_aarch64_main (sha2_detected : Bool) : Option (List Nat) :=
  some (compress256 sha256_main_init [sha256_abc_block])

/-- `main` of sha512_aarch64/src/main.rs as a function of the runtime
feature-detection result: `is_aarch64_feature_detected!("sha3")` is
consulted first, and on failure the function returns early without running
`sha512_compress_hw`. -/
def sha512_aarch64_main (sha3_detected : Bool) : Option (List Nat) :=
  if !sha3_detected then none
  else some (sha512_compress_hw sha512_main_init [sha512_abc_block])

/-- C6 counterexample: the SHA-256 accelerated path executes the hardware
compression even when feature detection reports the extension absent — the
run is not refused, and its outcome is independent of the detection
result. -/
theorem C6_counterexample :
    sha256_aarch64_main false ≠ none ∧
    sha256_aarch64_main false = sha256_aarch64_main true := by
  constructor
  · simp [sha256_aarch64_main]
  · rfl

/-- C6 (amended): only the SHA-512 accelerated path is gated by runtime
feature detection — it refuses to run exactly when the sha3 extension is
reported absent — while the SHA-256 accelerated path performs no check and
executes the hardware compression unconditionally. -/
theorem C6_hw_gating_amended :
    (∀ d : Bool, sha512_aarch64_main d = none ↔ d = false) ∧
    (∀ d : Bool,
      sha256_aarch64_main d = some (compress256 sha256_main_init [sha256_abc_block])) := by
  constructor
  · intro d
    cases d <;> simp [sha512_aarch64_main]
  · intro d
    rfl
